import Mathlib

/-!
Verification development for the marvin PRD-to-task pipeline.

The Lean definitions below are a shallow embedding of the Python sources:

* src/marvin/core/domain/models.py                     (domain records)
* src/marvin/core/agents/sequence_planner.py           (dependency graph, sequencer)
* src/marvin/core/agents/document_analysis.py          (markdown feature extractor)
* src/marvin/infrastructure/template_generator/xml_generator.py
* src/marvin/core/agents/template_generation.py
* src/marvin/core/application/process_prd_use_case.py  (output filename)

Modelling conventions:
* Python strings are modelled as `List Char` (with `String` wrappers at the
  record level); text processing is implemented character by character with
  the semantics of the concrete regular expressions used by the source,
  which is documented next to each definition.
* `datetime.now()` is modelled as an explicit `Nat` tick threaded by the
  caller; no claim depends on time values.
* Python `raise` / `try` is modelled with `Except String`.
* Python dict/set insertion-ordered contents are modelled as association
  lists; iteration over Python sets has unspecified order, and every
  concrete computation below only involves sets with at most one element,
  so the list model is order-faithful for them.
-/

namespace Marvin

/-! ## Character and string helpers (Python `str` semantics, ASCII fragment) -/

/-- Python regex `\s` / `str.strip` whitespace (ASCII part). -/
def isWs (c : Char) : Bool :=
  c = ' ' || c = '\t' || c = '\n' || c = '\r' || c = '\x0b' || c = '\x0c'

/-- Python `str.lower` on ASCII letters. -/
def lowerChar (c : Char) : Char :=
  if 'A' ≤ c ∧ c ≤ 'Z' then Char.ofNat (c.toNat + 32) else c

def lowerStr (s : List Char) : List Char := s.map lowerChar

/-- Python `str.strip()`. -/
def pyStrip (s : List Char) : List Char :=
  ((s.dropWhile isWs).reverse.dropWhile isWs).reverse

/-- Python `str.isdigit` on ASCII. -/
def isDigit (c : Char) : Bool := '0' ≤ c ∧ c ≤ '9'

/-- Python regex `\w` (ASCII part): letters, digits, underscore. -/
def isWordChar (c : Char) : Bool :=
  ('a' ≤ c ∧ c ≤ 'z') || ('A' ≤ c ∧ c ≤ 'Z') || isDigit c || c = '_'

/-- Case-insensitive prefix test: does `hay` start with (already lowercase)
`needle`? -/
def startsWithCI (needle hay : List Char) : Bool :=
  needle.isPrefixOf (lowerStr (hay.take needle.length))

/-- Case-sensitive prefix test. -/
def startsWithCS (needle hay : List Char) : Bool :=
  needle.isPrefixOf hay

/-- Does `hay` contain (case-sensitively) the substring `needle`?
Model of Python `needle in hay`. -/
def containsSub (needle : List Char) : List Char → Bool
  | [] => needle.isEmpty
  | c :: rest => startsWithCS needle (c :: rest) || containsSub needle rest

/-- Split a list at every occurrence of `sep` (Python `str.split(sep)` for a
one-character separator). -/
def splitOnChar (sep : Char) : List Char → List (List Char)
  | [] => [[]]
  | c :: rest =>
    let r := splitOnChar sep rest
    if c = sep then [] :: r
    else
      match r with
      | [] => [[c]]
      | h :: t => (c :: h) :: t

/-- The lines of a text, Python `content.split("\n")`. -/
def linesOf (content : List Char) : List (List Char) := splitOnChar '\n' content

/-- Python `",".join` style join. -/
def joinWith (sep : List Char) : List (List Char) → List Char
  | [] => []
  | [x] => x
  | x :: y :: rest => x ++ sep ++ joinWith sep (y :: rest)

/-- First `some` produced by `f` over a list. -/
def firstSome (f : α → Option β) : List α → Option β
  | [] => none
  | a :: rest =>
    match f a with
    | some b => some b
    | none => firstSome f rest

/-- Python `f"{n:02d}"`: decimal representation zero-padded to width 2 (the
two-digit range is spelled out digit by digit for provability). -/
def pad2 (n : Nat) : List Char :=
  if n < 10 then ['0', Nat.digitChar n]
  else if n < 100 then [Nat.digitChar (n / 10), Nat.digitChar (n % 10)]
  else Nat.toDigits 10 n

/-- Python `f"{n:03d}"`: decimal representation zero-padded to width 3. -/
def pad3 (n : Nat) : List Char :=
  if n < 10 then ['0', '0', Nat.digitChar n]
  else if n < 100 then ['0', Nat.digitChar (n / 10), Nat.digitChar (n % 10)]
  else if n < 1000 then
    [Nat.digitChar (n / 100), Nat.digitChar (n / 10 % 10), Nat.digitChar (n % 10)]
  else Nat.toDigits 10 n

/-! ## Domain models (src/marvin/core/domain/models.py) -/

inductive FeatureStatus where
  | proposed | accepted | in_progress | completed | deferred | rejected
deriving Repr, DecidableEq

/-- models.py `UserStory`. -/
structure UserStory where
  story : String
  format : String := "as_a_user"
  actor : Option String := none
  action : Option String := none
  benefit : Option String := none
deriving Repr, DecidableEq

/-- models.py `Feature`.  `title` is the canonical name (`name` is a
backward-compatibility alias in the source). -/
structure Feature where
  id : String
  title : String
  description : String
  requirements : List String := []
  dependencies : List String := []
  status : FeatureStatus := FeatureStatus.proposed
  priority : Nat := 1
  effort : Option String := none
  tags : List String := []
  user_stories : List UserStory := []
  acceptance_criteria : List String := []
  definition_of_done : List String := []
deriving Repr, DecidableEq

/-- models.py `PRD`.  Timestamps are abstract `Nat` ticks; `metadata` is an
association list. -/
structure PRD where
  id : String
  title : String
  description : String
  author : String
  created_at : Nat := 0
  updated_at : Nat := 0
  version : String
  features : List Feature := []
  tags : List String := []
  metadata : List (String × String) := []
  dependency_graph : List (String × List String) := []
deriving Repr, DecidableEq

structure Technology where
  name : String
  version : Option String := none
  category : String
  description : Option String := none
deriving Repr, DecidableEq

structure Component where
  name : String
  path : String
  type : String
  description : Option String := none
  dependencies : List String := []
  tags : List String := []
deriving Repr, DecidableEq

structure Codebase where
  id : String
  name : String
  root_path : String
  components : List Component := []
  technologies : List Technology := []
  scanned_at : Nat := 0
  architecture_patterns : List String := []
deriving Repr, DecidableEq

inductive TaskStatus where
  | planned | in_progress | completed | blocked | failed
deriving Repr, DecidableEq

/-- models.py `Task`. -/
structure Task where
  task_id : String
  sequence_number : Nat
  name : String
  description : String
  feature_id : String
  depends_on : List String := []
  template_path : Option String := none
  status : TaskStatus := TaskStatus.planned
  created_at : Nat := 0
  updated_at : Nat := 0
deriving Repr, DecidableEq

/-- models.py `Workflow`. -/
structure Workflow where
  id : String
  name : String
  description : String
  prd_id : String
  codebase_id : Option String := none
  tasks : List Task := []
  created_at : Nat := 0
  updated_at : Nat := 0
deriving Repr, DecidableEq

/-- Ordering used by `Workflow.add_task`: `key=lambda x: x.sequence_number`. -/
def taskLe (a b : Task) : Prop := a.sequence_number ≤ b.sequence_number

instance : DecidableRel taskLe := fun a b => Nat.decLe _ _

instance : IsTotal Task taskLe := ⟨fun a b => Nat.le_total _ _⟩

instance : IsTrans Task taskLe := ⟨fun _ _ _ h h' => Nat.le_trans h h'⟩

/-- models.py `Workflow.add_task`: append, then re-sort the whole list by
`sequence_number` (Python `list.sort` is a stable sort; we model it with the
stable `List.insertionSort`), then bump `updated_at`. -/
def Workflow.add_task (w : Workflow) (t : Task) (now : Nat) : Workflow :=
  { w with
      tasks := List.insertionSort taskLe (w.tasks ++ [t])
      updated_at := now }

/-! ## Dependency graph (src/marvin/core/agents/sequence_planner.py)

`DependencyGraph.nodes` is a Python dict `feature-id -> set of ids it depends
on` (per `add_edge`: `nodes[from_id].add(to_id)` with "from depends on to").
We model it as an insertion-ordered association list whose edge sets are
duplicate-free insertion-ordered lists. -/

structure DGraph where
  nodes : List (String × List String)
deriving Repr, DecidableEq

/-- `DependencyGraph.add_node`. -/
def DGraph.add_node (g : DGraph) (id' : String) : DGraph :=
  if g.nodes.any (fun p => p.1 = id') then g else ⟨g.nodes ++ [(id', [])]⟩

/-- `DependencyGraph.add_edge` (`from_id` depends on `to_id`). -/
def DGraph.add_edge (g : DGraph) (fromId toId : String) : DGraph :=
  let g' := (g.add_node fromId).add_node toId
  ⟨g'.nodes.map fun p =>
    if p.1 = fromId then (p.1, if toId ∈ p.2 then p.2 else p.2 ++ [toId]) else p⟩

/-- Lookup `self.nodes[node]` (all call sites only look up present keys). -/
def DGraph.neighbors (g : DGraph) (id' : String) : List String :=
  match g.nodes.find? (fun p => p.1 = id') with
  | some p => p.2
  | none => []

/-- The node keys in insertion order (`for node in self.nodes`). -/
def DGraph.keys (g : DGraph) : List String := g.nodes.map Prod.fst

/-- Total number of edges, used as fuel for the mutating loops. -/
def DGraph.edgeCount (g : DGraph) : Nat := (g.nodes.map (fun p => p.2.length)).sum

/-- The recursive `is_cyclic` of `DependencyGraph.has_cycle`, with explicit
fuel (the recursion depth is bounded by the number of unvisited nodes, and
all call sites pass `g.nodes.length + 1`).  The accumulator is
`(cycle-found, visited)`; the `for neighbor in self.nodes[node]` loop with
its early `return True` is a fold whose first component short-circuits.  The
stack argument is the path of nodes currently on the recursion stack
(`rec_stack`); it is extended for the recursive call and abandoned on a hit,
exactly like the mutated Python set along the early-return path. -/
def cycNode (g : DGraph) : Nat → String → List String → List String → Bool × List String
  | 0, _, visited, _ => (false, visited)
  | fuel + 1, node, visited, stack =>
    (g.neighbors node).foldl
      (fun acc nb =>
        if acc.1 then acc
        else if nb ∈ acc.2 then
          (if nb ∈ node :: stack then (true, acc.2) else acc)
        else cycNode g fuel nb acc.2 (node :: stack))
      (false, node :: visited)

/-- Outer loop of `DependencyGraph.has_cycle` over all node keys; `visited`
persists across the iterations, like the closure variable in the source. -/
def hasCycleAux (g : DGraph) : List String → List String → Bool
  | [], _ => false
  | n :: rest, visited =>
    if n ∈ visited then hasCycleAux g rest visited
    else
      match cycNode g (g.nodes.length + 1) n visited [] with
      | (true, _) => true
      | (false, visited') => hasCycleAux g rest visited'

/-- `DependencyGraph.has_cycle`. -/
def DGraph.hasCycle (g : DGraph) : Bool := hasCycleAux g g.keys []

/-- The recursive `dfs` of `DependencyGraph.topological_sort`, with fuel.
State is `(visited, result)`; the neighbor loop is a fold, and the node is
appended to `result` after all of its neighbors have been visited
(post-order). -/
def topoNode (g : DGraph) : Nat → String → List String × List String → List String × List String
  | 0, _, st => st
  | fuel + 1, node, (visited, result) =>
    let st := (g.neighbors node).foldl
      (fun st nb => if nb ∈ st.1 then st else topoNode g fuel nb st)
      (node :: visited, result)
    (st.1, st.2 ++ [node])

/-- Outer loop of `topological_sort` over all node keys. -/
def topoAux (g : DGraph) : List String → List String × List String → List String × List String
  | [], st => st
  | n :: rest, (visited, result) =>
    if n ∈ visited then topoAux g rest (visited, result)
    else topoAux g rest (topoNode g (g.nodes.length + 1) n (visited, result))

/-- `DependencyGraph.topological_sort`: raises `ValueError` when the graph
has a cycle, otherwise returns the reversed post-order DFS list. -/
def DGraph.topological_sort (g : DGraph) : Except String (List String) :=
  if g.hasCycle then
    Except.error "Graph enthält Zyklen und kann nicht topologisch sortiert werden"
  else
    Except.ok (topoAux g g.keys ([], [])).2.reverse

/-! ## SequencePlannerAgent (src/marvin/core/agents/sequence_planner.py) -/

/-- `SequencePlannerAgent._build_dependency_graph`: one node per feature,
then one edge `feature.id -> dep` for every raw dependency token. -/
def build_dependency_graph (features : List Feature) : DGraph :=
  let g := features.foldl (fun g f => g.add_node f.id) ⟨[]⟩
  features.foldl (fun g f => f.dependencies.foldl (fun g d => g.add_edge f.id d) g) g

/-- The dict comprehension `{f.id: f.priority for f in features}` read through
`feature_priorities.get(from_id, 0)` (first binding wins in our list model;
feature ids are unique in every graph the agent builds). -/
def prioOf (features : List Feature) (id' : String) : Nat :=
  match features.find? (fun f => f.id = id') with
  | some f => f.priority
  | none => 0

/-- Inner loop of the minimum-edge search of
`_resolve_cyclic_dependencies`: fold the edges of one node into the current
best `(priority, from, to)` candidate (strict `<`, so the first minimum
encountered is kept, matching `edge_priority < min_priority`). -/
def foldEdges (prios : String → Nat) (a : String) :
    List String → Option (Nat × String × String) → Option (Nat × String × String)
  | [], best => best
  | b :: bs, best =>
    let p := prios a + prios b
    let best' :=
      match best with
      | none => some (p, a, b)
      | some (bp, e) => if p < bp then some (p, a, b) else some (bp, e)
    foldEdges prios a bs best'

/-- Outer loop of the minimum-edge search over all adjacency entries. -/
def findMinEdgeAux (prios : String → Nat) :
    List (String × List String) → Option (Nat × String × String) → Option (Nat × String × String)
  | [], best => best
  | (a, tos) :: rest, best => findMinEdgeAux prios rest (foldEdges prios a tos best)

/-- The `min_priority` / `edge_to_remove` search of
`_resolve_cyclic_dependencies`. -/
def findMinEdge (prios : String → Nat) (g : DGraph) : Option (Nat × String × String) :=
  findMinEdgeAux prios g.nodes none

/-- `working_graph.nodes[from_id].remove(to_id)`. -/
def removeEdge (g : DGraph) (a b : String) : DGraph :=
  ⟨g.nodes.map fun p => if p.1 = a then (p.1, p.2.erase b) else p⟩

/-- The `while working_graph.has_cycle()` edge-removal loop of
`_resolve_cyclic_dependencies`, with fuel (`none` = fuel exhausted; we prove
below that `edgeCount + 1` fuel always suffices). -/
def resolveLoop (prios : String → Nat) : Nat → DGraph → Option DGraph
  | 0, _ => none
  | fuel + 1, g =>
    if g.hasCycle then
      match findMinEdge prios g with
      | some (_, a, b) => resolveLoop prios fuel (removeEdge g a b)
      | none => some g
    else some g

/-- `SequencePlannerAgent._resolve_cyclic_dependencies`: remove minimum-
priority edges until the working copy is acyclic, then topologically sort
it.  The only `raise` that can escape is the one of `topological_sort`. -/
def resolve_cyclic_dependencies (features : List Feature) (g : DGraph) :
    Except String (List String) :=
  match resolveLoop (prioOf features) (g.edgeCount + 1) g with
  | none => Except.error "unreachable: edge-removal loop ran out of fuel"
  | some g' => g'.topological_sort

/-- Task construction loop of `SequencePlannerAgent.execute`: for each id in
the resolved order, skip it if no feature carries that id, otherwise emit a
`Task` (dependency lookup is `f.id == dep_id` over the PRD's features) and
advance the 1-based sequence number. -/
def buildTasks (prd : PRD) (now : Nat) : List String → Nat → Workflow → Workflow
  | [], _, w => w
  | fid :: rest, seqNum, w =>
    match prd.features.find? (fun f => f.id = fid) with
    | none => buildTasks prd now rest seqNum w
    | some feature =>
      let depends_on := feature.dependencies.filterMap fun depId =>
        match prd.features.find? (fun f => f.id = depId) with
        | some depFeature => some ("task_" ++ depFeature.id)
        | none => none
      let task : Task :=
        { task_id := "task_" ++ feature.id
          sequence_number := seqNum
          name := "Implementiere " ++ feature.title
          description := feature.description
          feature_id := feature.id
          depends_on := depends_on
          status := TaskStatus.planned
          created_at := now
          updated_at := now }
      buildTasks prd now rest (seqNum + 1) (w.add_task task now)

/-- `SequencePlannerAgent.execute`: build the graph, topologically sort it
(falling back to `_resolve_cyclic_dependencies` when the sort raises on a
cycle), then create one task per sequenced feature. -/
def sequencePlannerExecute (prd : PRD) (codebase : Option Codebase) (now : Nat) :
    Except String Workflow :=
  let g := build_dependency_graph prd.features
  let seqE :=
    match g.topological_sort with
    | Except.ok s => Except.ok s
    | Except.error _ => resolve_cyclic_dependencies prd.features g
  match seqE with
  | Except.error e => Except.error e
  | Except.ok featureSeq =>
    let w : Workflow :=
      { id := "workflow_" ++ prd.id
        name := "Workflow für " ++ prd.title
        description := "Automatisch generierter Workflow für " ++ prd.title
        prd_id := prd.id
        codebase_id := codebase.map (fun c => c.id)
        created_at := now
        updated_at := now }
    Except.ok (buildTasks prd now featureSeq 1 w)

/-- `b` is an edge target of `a` in one of the adjacency entries of `g`. -/
def IsEdge (g : DGraph) (a b : String) : Prop :=
  ∃ p ∈ g.nodes, p.1 = a ∧ b ∈ p.2

/-- The minimum-edge candidate is `none` or an actual edge of `g`. -/
def OptEdgeOk (g : DGraph) : Option (Nat × String × String) → Prop
  | none => True
  | some (_, a, b) => IsEdge g a b

/-! ## DocumentAnalysisAgent (src/marvin/core/agents/document_analysis.py)

The extractors are `re.search`/`re.finditer` based; each Lean function
documents the concrete pattern it implements and follows the leftmost-match,
greedy/lazy and backtracking behaviour of that pattern (checked against the
Python `re` engine).  `\s` crosses newlines unless noted. -/

/-- The capture of a `\s*(.+)`-to-end-of-line tail (also `\s+` tails via
`minWs`): skip the whitespace run greedily; if a non-whitespace character
remains, the capture is the rest of its line; if the whole tail is
whitespace, the regex backtracks inside the run and captures a single
non-newline whitespace character when one exists at index ≥ `minWs`
(everything after the largest such index is newlines).  `none` means the
pattern fails at this position and the search continues. -/
def wsLineCapture (minWs : Nat) (after : List Char) : Option (List Char) :=
  let run := after.takeWhile isWs
  let rest := after.drop run.length
  if rest.isEmpty then
    match (run.drop minWs).reverse.dropWhile (· == '\n') with
    | [] => none
    | c :: _ => some [c]
  else if run.length < minWs then none
  else some (rest.takeWhile (· != '\n'))

/-- Consume `\s*\n` (equally `\s*\n+` followed by a capture) at the head:
succeeds iff the maximal whitespace run contains a newline, and the
remainder starts right after the run's last newline (greedy backtracking
leaves the run's trailing non-newline whitespace to what follows). -/
def consumeWsNl (s : List Char) : Option (List Char) :=
  let run := s.takeWhile isWs
  if run.contains '\n' then
    some ((run.reverse.takeWhile (· != '\n')).reverse ++ s.drop run.length)
  else none

/-- `re.search` scan for a case-insensitive label followed by a
`\s*(.+?)(?:\n|$)`-style line capture (used by the Author, bold Priority and
bold Dependencies patterns): try every position left to right; at a label
occurrence where no character is capturable, keep searching. -/
def scanLabelCI (label : List Char) : List Char → Option (List Char)
  | [] => none
  | c :: rest =>
    if startsWithCI label (c :: rest) then
      match wsLineCapture 0 ((c :: rest).drop label.length) with
      | some cap => some cap
      | none => scanLabelCI label rest
    else scanLabelCI label rest

/-- `_extract_version`: `re.search(r"Version:\s*(\S+)", content, re.I)` —
case-insensitive label, any whitespace (newlines included), then a maximal
nonempty non-whitespace token. -/
def scanVersion : List Char → Option (List Char)
  | [] => none
  | c :: rest =>
    if startsWithCI "version:".toList (c :: rest) then
      let after := (c :: rest).drop "version:".length
      let tok := (after.dropWhile isWs).takeWhile (fun ch => !(isWs ch))
      if tok.isEmpty then scanVersion rest else some tok
    else scanVersion rest

def extract_version (content : List Char) : List Char :=
  (scanVersion content).getD "0.0.0".toList

def extract_author (content : List Char) : List Char :=
  match scanLabelCI "author:".toList content with
  | some cap => pyStrip cap
  | none => "Unknown".toList

/-- One title pattern of `_extract_title`, `re.MULTILINE`: at a line start,
`#`, then `\s+` (newlines included); with a label (patterns 1 and 2,
case-sensitive) the label must follow at least one whitespace character and
the capture is the `\s*(.+)$` tail after it; without a label (pattern 3) the
capture is the `\s+(.+?)` tail itself.  The `atStart` flag tracks `^`. -/
def titleScanP (labelOpt : Option (List Char)) : List Char → Bool → Option (List Char)
  | [], _ => none
  | c :: rest, atStart =>
    let here : Option (List Char) :=
      if atStart ∧ c = '#' then
        match labelOpt with
        | some label =>
          let run := rest.takeWhile isWs
          let r2 := rest.drop run.length
          if run.isEmpty then none
          else if startsWithCS label r2 then wsLineCapture 0 (r2.drop label.length)
          else none
        | none => wsLineCapture 1 rest
      else none
    match here with
    | some cap => some cap
    | none => titleScanP labelOpt rest (c = '\n')

/-- Python `title.endswith(":")` / `title[:-1].strip()` post-processing. -/
def stripTrailingColon (t : List Char) : List Char :=
  match t.reverse with
  | ':' :: r => pyStrip r.reverse
  | _ => t

/-- `_extract_title`: the three patterns tried over the whole content in
order, then strip and drop one trailing colon; default "Unknown PRD". -/
def extract_title (content : List Char) : List Char :=
  let r := titleScanP (some "Product Requirements Document:".toList) content true
  let r := match r with
    | some t => some t
    | none => titleScanP (some "PRD:".toList) content true
  let r := match r with
    | some t => some t
    | none => titleScanP none content true
  match r with
  | some t => stripTrailingColon (pyStrip t)
  | none => "Unknown PRD".toList

/-- `_extract_priority`: bold `**Priority:**` line, then keyword containment
checks on the stripped lowercased capture, in source order; default 0. -/
def extract_priority (featureContent : List Char) : Nat :=
  match scanLabelCI "**priority:**".toList featureContent with
  | some cap =>
    let t := lowerStr (pyStrip cap)
    if containsSub "high".toList t || containsSub "p0".toList t then 0
    else if containsSub "medium".toList t || containsSub "p1".toList t then 1
    else if containsSub "low".toList t || containsSub "p2".toList t then 2
    else 0
  | none => 0

/-- The label of `\*\*Dependencies?:\*\*`: the optional `s?` makes the
alternatives "**dependencies:**" and (sic) "**dependencie:**". -/
def scanDepLabel : List Char → Option (List Char)
  | [] => none
  | c :: rest =>
    let s := c :: rest
    let cap :=
      if startsWithCI "**dependencies:**".toList s then
        wsLineCapture 0 (s.drop "**dependencies:**".length)
      else if startsWithCI "**dependencie:**".toList s then
        wsLineCapture 0 (s.drop "**dependencie:**".length)
      else none
    match cap with
    | some cap => some cap
    | none => scanDepLabel rest

/-- `_extract_dependencies`: bold Dependencies line, comma-split, stripped,
dropping empties and "none" (case-insensitive). -/
def extract_dependencies (featureContent : List Char) : List (List Char) :=
  match scanDepLabel featureContent with
  | some cap =>
    let parts := (splitOnChar ',' (pyStrip cap)).map pyStrip
    parts.filter (fun d => !d.isEmpty && lowerStr d ≠ "none".toList)
  | none => []

/-- The label of `\*\*Requirements?:\*\*` (case-insensitive): returns the
remainder after the matched label. -/
def reqLabelAt (s : List Char) : Option (List Char) :=
  if startsWithCI "**requirements:**".toList s then
    some (s.drop "**requirements:**".length)
  else if startsWithCI "**requirement:**".toList s then
    some (s.drop "**requirement:**".length)
  else none

/-- The lazy `(.*?)(?=\*\*|\n\n|$)` capture of the requirements-section
pattern (DOTALL, no MULTILINE): walk forward until the earliest position
looking at `**`, at `\n\n`, at the end, or at a single final newline (the
`$`-before-final-newline position). -/
def reqSectionCapture : List Char → List Char
  | [] => []
  | c :: rest =>
    if startsWithCS "**".toList (c :: rest) || startsWithCS "\n\n".toList (c :: rest)
        || (c :: rest) = ['\n'] then []
    else c :: reqSectionCapture rest

/-- `re.search(r"\*\*Requirements?:\*\*\s*\n(.*?)(?=\*\*|\n\n|$)", ..)`:
scan for the label; `\s*\n` requires a newline in the following whitespace
run; on failure the search continues at the next position. -/
def scanReqSection : List Char → Option (List Char)
  | [] => none
  | c :: rest =>
    let attempt :=
      match reqLabelAt (c :: rest) with
      | some afterLabel =>
        match consumeWsNl afterLabel with
        | some afterRun => some (reqSectionCapture afterRun)
        | none => none
      | none => none
    match attempt with
    | some cap => some cap
    | none => scanReqSection rest

/-- The `:\s+` tail of the optional `REQ-…:` prefix. -/
def reqAfterColon (t : List Char) : Option (List Char) :=
  match t with
  | ':' :: r => if (r.takeWhile isWs).isEmpty then none else some (r.dropWhile isWs)
  | _ => none

/-- The optional bullet prefix `REQ-\d+(?:\.\d+)?:\s+` (case-sensitive):
returns the remainder after the consumed prefix, trying the variant with
`.\d+` first (greedy optional group). -/
def reqTagConsume (s : List Char) : Option (List Char) :=
  if startsWithCS "REQ-".toList s then
    let a := s.drop 4
    let ds := a.takeWhile isDigit
    if ds.isEmpty then none
    else
      let a1 := a.drop ds.length
      let withOpt : Option (List Char) :=
        match a1 with
        | '.' :: r =>
          let ds2 := r.takeWhile isDigit
          if ds2.isEmpty then none else reqAfterColon (r.drop ds2.length)
        | _ => none
      match withOpt with
      | some res => some res
      | none => reqAfterColon a1
  else none

/-- One attempted match of the bullet pattern
`[-*]\s+(?:REQ-\d+(?:\.\d+)?:\s+)?(.+?)(?=\n[-*]|\n\n|$)` (MULTILINE) at a
`[-*]` character; `after` is the text following that character.  Returns the
raw capture and the number of characters of `after` consumed up to the
capture's end (where `finditer` resumes).  With MULTILINE the `$`
alternative matches at every line end, so the lazy capture always ends at
its line's end.  When the `\s+` tail is all whitespace the capture
backtracks to a single non-newline whitespace character at index ≥ 1 of the
run; when the consumed REQ prefix leaves nothing capturable on the line the
optional group is dropped. -/
def tryBullet (after : List Char) : Option (List Char × Nat) :=
  let run := after.takeWhile isWs
  let rest := after.drop run.length
  if run.isEmpty then none
  else if rest.isEmpty then
    match (run.drop 1).reverse.dropWhile (· == '\n') with
    | [] => none
    | c :: tail =>
      -- the capture is that single character, at index `1 + tail.length`
      -- of the run; everything after it is newlines
      some ([c], tail.length + 2)
  else
    match reqTagConsume rest with
    | some afterTag =>
      let cap := afterTag.takeWhile (· != '\n')
      if cap.isEmpty then
        let cap2 := rest.takeWhile (· != '\n')
        some (cap2, run.length + cap2.length)
      else
        some (cap, run.length + (rest.length - afterTag.length) + cap.length)
    | none =>
      let cap := rest.takeWhile (· != '\n')
      some (cap, run.length + cap.length)

/-- `re.finditer` over the bullet pattern: scan for `-`/`*`, attempt a
match, resume after the capture on success and at the next character on
failure; each requirement is the stripped capture. -/
def bulletScan : List Char → List (List Char)
  | [] => []
  | c :: rest =>
    if c = '-' ∨ c = '*' then
      match tryBullet rest with
      | some (cap, k) => pyStrip cap :: bulletScan (rest.drop k)
      | none => bulletScan rest
    else bulletScan rest
termination_by l => l.length
decreasing_by
  all_goals simp [List.length_drop]
  all_goals omega

/-- The lazy `(.*?)\*\*Requirements?:\*\*\s*\n` middle of the subsection
pattern: first label occurrence whose following whitespace run contains a
newline; result is the remainder where the bullet capture starts. -/
def findReqLabelNl : List Char → Option (List Char)
  | [] => none
  | c :: rest =>
    let attempt :=
      match reqLabelAt (c :: rest) with
      | some afterLabel => consumeWsNl afterLabel
      | none => none
    match attempt with
    | some afterRun => some afterRun
    | none => findReqLabelNl rest

/-- The lazy `(.*?)(?=####|\*\*|###|\Z)` capture of the subsection pattern
(`####` is subsumed by `###`): returns the capture and the remainder where
`finditer` resumes. -/
def subsecCapture : List Char → List Char × List Char
  | [] => ([], [])
  | c :: rest =>
    if startsWithCS "###".toList (c :: rest) || startsWithCS "**".toList (c :: rest) then
      ([], c :: rest)
    else
      let (cap, rem) := subsecCapture rest
      (c :: cap, rem)

/-- One attempted match of
`####\s+\d+\.\d+\s+(.+?)\n(.*?)\*\*Requirements?:\*\*\s*\n(.*?)(?=####|\*\*|###|\Z)`
(DOTALL, IGNORECASE) at a given position: returns the bullet requirements of
the subsection's capture and the remainder after the match. -/
def trySubsec (s : List Char) : Option (List (List Char) × List Char) :=
  if startsWithCS "####".toList s then
    let a := s.drop 4
    let ws1 := a.takeWhile isWs
    if ws1.isEmpty then none
    else
      let a1 := a.drop ws1.length
      let d1 := a1.takeWhile isDigit
      if d1.isEmpty then none
      else
        match a1.drop d1.length with
        | '.' :: a2 =>
          let d2 := a2.takeWhile isDigit
          if d2.isEmpty then none
          else
            let a3 := a2.drop d2.length
            let ws2 := a3.takeWhile isWs
            if ws2.isEmpty then none
            else
              let a4 := a3.drop ws2.length
              let ttl := a4.takeWhile (· != '\n')
              if ttl.isEmpty then none
              else
                match a4.drop ttl.length with
                | '\n' :: afterTitle =>
                  match findReqLabelNl afterTitle with
                  | some afterRun =>
                    let (cap, rem) := subsecCapture afterRun
                    some (bulletScan cap, rem)
                  | none => none
                | _ => none
        | _ => none
  else none

/-- `re.finditer` over the subsection pattern, resuming after each match
(every successful match consumes at least the `####` marker, so the `max`
in the recursion is the identity on real matches and only serves the
termination measure). -/
def subsecScan : List Char → List (List Char)
  | [] => []
  | c :: rest =>
    match trySubsec (c :: rest) with
    | some (reqs, rem) =>
      reqs ++ subsecScan ((c :: rest).drop (max ((c :: rest).length - rem.length) 1))
    | none => subsecScan rest
termination_by l => l.length
decreasing_by
  all_goals simp [List.length_drop]

/-- `_extract_requirements`: the bullets under the bold Requirements label,
followed by the bullets of every `####`-numbered subsection, in encounter
order. -/
def extract_requirements (featureContent : List Char) : List (List Char) :=
  (match scanReqSection featureContent with
   | some sec => bulletScan sec
   | none => []) ++ subsecScan featureContent

/-- `re.sub(r"\s+", "_", slug)`: each maximal whitespace run becomes a
single underscore (flag: currently inside a run). -/
def collapseWsAux : List Char → Bool → List Char
  | [], _ => []
  | c :: rest, inRun =>
    if isWs c then
      if inRun then collapseWsAux rest true else '_' :: collapseWsAux rest true
    else c :: collapseWsAux rest false

def collapseWs (s : List Char) : List Char := collapseWsAux s false

/-- Python `str.strip("_")`. -/
def stripUnderscores (s : List Char) : List Char :=
  ((s.dropWhile (· == '_')).reverse.dropWhile (· == '_')).reverse

/-- `_generate_feature_id`: lowercase, `re.sub(r"[^a-z0-9\s-]", "", ·)`
(keeping letters, digits, whitespace and hyphens), collapse whitespace runs
to single underscores, strip leading/trailing underscores, then append the
zero-padded positional index. -/
def generate_feature_id (featureName : List Char) (index : Nat) : List Char :=
  let slug := lowerStr featureName
  let slug := slug.filter (fun c => ('a' ≤ c ∧ c ≤ 'z') || isDigit c || isWs c || c = '-')
  let slug := collapseWs slug
  let slug := stripUnderscores slug
  slug ++ '_' :: pad2 index

/-- A line beginning `##` followed by one whitespace character — the
`(?=^##\s)` stop of the Features-zone capture. -/
def isH2Start (l : List Char) : Bool :=
  match l with
  | '#' :: '#' :: c :: _ => isWs c
  | _ => false

/-- The zone lines up to the first `^##\s` line, with a flag telling whether
the capture stopped there (in which case the zone keeps its final newline)
or ran to the end of the text. -/
def zoneLines : List (List Char) → List (List Char) × Bool
  | [] => ([], false)
  | l :: rest =>
    if isH2Start l then ([], true)
    else
      let (t, b) := zoneLines rest
      (l :: t, b)

/-- Reassemble the captured zone text from `zoneLines`. -/
def zoneText (ls : List (List Char) × Bool) : List Char :=
  if ls.2 then joinWith ['\n'] ls.1 ++ ['\n'] else joinWith ['\n'] ls.1

/-- `re.search(r"##\s+Features?\s*\n(.*?)(?=^##\s|\Z)", ..., M|S|I)`: scan
every position (the `##` is not anchored) for `##`, whitespace (newlines
included), case-insensitive "feature" with optional "s", then `\s*\n`; the
zone is the text from after that run's last newline up to the next
`^##\s` line or the end. -/
def featuresZoneScan : List Char → Option (List Char)
  | [] => none
  | c :: rest =>
    let s := c :: rest
    let attempt : Option (List Char) :=
      if startsWithCS "##".toList s then
        let a := s.drop 2
        let run := a.takeWhile isWs
        if run.isEmpty then none
        else
          let a1 := a.drop run.length
          if startsWithCI "feature".toList a1 then
            let a2 := a1.drop 7
            let a3 := match a2 with
              | 's' :: r => r
              | 'S' :: r => r
              | _ => a2
            match consumeWsNl a3 with
            | some afterRun => some (zoneText (zoneLines (linesOf afterRun)))
            | none => none
          else none
      else none
    match attempt with
    | some z => some z
    | none => featuresZoneScan rest

/-- A line beginning `###` followed by one whitespace character — the
feature-heading anchor `^###\s` (a fourth `#` is not whitespace, so
`####` subsections do not split). -/
def isH3Start (l : List Char) : Bool :=
  match l with
  | '#' :: '#' :: '#' :: c :: _ => isWs c
  | _ => false

/-- Block lines up to the next `^###\s` heading (`(.*?)(?=^###\s|\Z)`),
with the stopped flag as for `zoneLines`. -/
def zoneLinesH3 : List (List Char) → List (List Char) × Bool
  | [] => ([], false)
  | l :: rest =>
    if isH3Start l then ([], true)
    else
      let (t, b) := zoneLinesH3 rest
      (l :: t, b)

/-- The optional `Feature\s*\d+:?\s*` heading prefix (case-sensitive):
returns the consumed text and the remainder. -/
def featPfx1 (s : List Char) : Option (List Char × List Char) :=
  if startsWithCS "Feature".toList s then
    let a := s.drop 7
    let ws1 := a.takeWhile isWs
    let a1 := a.drop ws1.length
    let ds := a1.takeWhile isDigit
    if ds.isEmpty then none
    else
      let a2 := a1.drop ds.length
      let (colon, a3) :=
        match a2 with
        | ':' :: r => ([':'], r)
        | _ => (([] : List Char), a2)
      let ws2 := a3.takeWhile isWs
      some ("Feature".toList ++ ws1 ++ ds ++ colon ++ ws2, a3.drop ws2.length)
  else none

/-- The optional `\d+\.\s*` heading prefix. -/
def featPfx2 (s : List Char) : Option (List Char × List Char) :=
  let ds := s.takeWhile isDigit
  if ds.isEmpty then none
  else
    match s.drop ds.length with
    | '.' :: r =>
      let ws := r.takeWhile isWs
      some (ds ++ '.' :: ws, r.drop ws.length)
    | _ => none

/-- One attempted feature-heading match of
`^###\s+((?:Feature\s*\d+:?\s*)?(?:\d+\.\s*)?)?(.+?)\n(.*?)(?=^###\s|\Z)`
(M|S) at a line start: returns `(prefix, raw name, raw block, remainder)`.
The prefix whitespace is greedy and crosses newlines; the name capture is
the rest of its line and requires a following newline (a heading on the
very last unterminated line matches nothing). -/
def tryFeatureHeading (s : List Char) : Option (List Char × List Char × List Char × List Char) :=
  if startsWithCS "###".toList s then
    let a := s.drop 3
    let run := a.takeWhile isWs
    if run.isEmpty then none
    else
      let a1 := a.drop run.length
      let (p1, a2) := (featPfx1 a1).getD ([], a1)
      let (p2, a3) := (featPfx2 a2).getD ([], a2)
      let pfx := p1 ++ p2
      let nm := a3.takeWhile (· != '\n')
      if nm.isEmpty then none
      else
        match a3.drop nm.length with
        | '\n' :: afterName =>
          let (blockLs, stopped) := zoneLinesH3 (linesOf afterName)
          let block := if stopped then joinWith ['\n'] blockLs ++ ['\n'] else joinWith ['\n'] blockLs
          let rem := (afterName.drop block.length)
          some (pfx, nm, block, rem)
        | _ => none
  else none

/-- `re.finditer` over the feature pattern inside the Features zone: only
line-start positions anchor a heading; on a successful match scanning
resumes after the block. -/
def featureBlocksScan : List Char → Bool → List (List Char × List Char × List Char)
  | [], _ => []
  | c :: rest, atStart =>
    let s := c :: rest
    match (if atStart then tryFeatureHeading s else none) with
    | some (pfx, nm, block, rem) =>
      (pfx, nm, block) :: featureBlocksScan (s.drop (max (s.length - rem.length) 1)) true
    | none => featureBlocksScan rest (c = '\n')
termination_by l _ => l.length
decreasing_by
  all_goals simp [List.length_drop]

/-- The description loop of `_extract_features`: collect stripped non-empty
lines until a blank line (after content), a `**`/`####`/`-`/`*` start, or a
short colon-terminated line. -/
def featureDescLines : List (List Char) → List (List Char) → List (List Char)
  | [], acc => acc.reverse
  | l :: rest, acc =>
    let l' := pyStrip l
    if l'.isEmpty then
      if acc.isEmpty then featureDescLines rest acc else acc.reverse
    else if startsWithCS "**".toList l' || startsWithCS "####".toList l'
        || startsWithCS "-".toList l' || startsWithCS "*".toList l'
        || (l'.getLast? == some ':' ∧ l'.length < 30) then acc.reverse
    else featureDescLines rest (l' :: acc)

/-- The per-match feature construction of `_extract_features` (basic path):
prefix handling, trailing-colon strip, id generation, description,
requirements, dependencies and priority extraction. -/
def buildBasicFeature (i : Nat) (pfx rawName blockRaw : List Char) : Feature :=
  let rawName := pyStrip rawName
  let fname :=
    if !pfx.isEmpty ∧ containsSub "feature".toList (lowerStr pfx) then rawName
    else pyStrip (pfx ++ rawName)
  let fname := stripTrailingColon fname
  let fc := pyStrip blockRaw
  { id := String.mk (generate_feature_id fname i)
    title := String.mk fname
    description := String.mk (joinWith [' '] (featureDescLines (linesOf fc) []))
    requirements := (extract_requirements fc).map String.mk
    dependencies := (extract_dependencies fc).map String.mk
    priority := extract_priority fc
    status := FeatureStatus.proposed }

/-- `_extract_features` (basic path). -/
def extract_features (content : List Char) : List Feature :=
  match featuresZoneScan content with
  | none => []
  | some zone =>
    ((featureBlocksScan zone true).enum.map
      (fun p => buildBasicFeature p.1 p.2.1 p.2.2.1 p.2.2.2))

/-- The full-lines capture `((?:(?!^#).*\n)*)` of the description patterns:
consecutive newline-terminated lines not starting with `#` (the final
unterminated segment is never captured). -/
def fullLinesNotHash : List (List Char) → List (List Char)
  | [] => []
  | [_] => []
  | l :: rest =>
    if l.head? == some '#' then [] else l :: fullLinesNotHash rest

/-- One attempted match of `##\s+(?:OPT\s+)?KW\s*\n+(capture)` at a
position (case-insensitive, `##` unanchored): with `optKw` present the
greedy optional branch is tried first. -/
def tryDescrSection (optKw : Option (List Char)) (optRequired : Bool) (kw : List Char) (s : List Char) :
    Option (List Char) :=
  if startsWithCS "##".toList s then
    let a := s.drop 2
    let run := a.takeWhile isWs
    if run.isEmpty then none
    else
      let a1 := a.drop run.length
      let tryKwAt (r : List Char) : Option (List Char) :=
        if startsWithCI kw r then
          match consumeWsNl (r.drop kw.length) with
          | some afterRun =>
            let cleaned := ((fullLinesNotHash (linesOf afterRun)).map pyStrip).filter
              (fun l => !l.isEmpty)
            some (joinWith [' '] cleaned)
          | none => none
        else none
      let withOpt : Option (List Char) :=
        match optKw with
        | some opt =>
          if startsWithCI opt a1 then
            let b := a1.drop opt.length
            let wsb := b.takeWhile isWs
            if wsb.isEmpty then none else tryKwAt (b.drop wsb.length)
          else none
        | none => none
      match withOpt with
      | some d => some d
      | none => if optRequired then none else tryKwAt a1
  else none

/-- `re.search` scan for one description pattern. -/
def descrScan (optKw : Option (List Char)) (optRequired : Bool) (kw : List Char) :
    List Char → Option (List Char)
  | [] => none
  | c :: rest =>
    match tryDescrSection optKw optRequired kw (c :: rest) with
    | some d => some d
    | none => descrScan optKw optRequired kw rest

/-- `_extract_description`: Overview (with optional Executive), Executive
Summary, then (Project) Description; lines stripped and joined with
spaces; empty string when nothing matches. -/
def extract_description (content : List Char) : List Char :=
  let r := descrScan (some "executive".toList) false "overview".toList content
  let r := match r with
    | some d => some d
    | none => descrScan (some "executive".toList) true "summary".toList content
  let r := match r with
    | some d => some d
    | none => descrScan (some "project".toList) false "description".toList content
  (r).getD []

/-- `_analyze_markdown_basic`: metadata extraction with defaults, a PRD
record (its own `features` field stays empty in the source) and the
extracted feature list. -/
def analyze_markdown_basic (content : List Char) (documentStem : String) (now : Nat) :
    PRD × List Feature :=
  let prd : PRD :=
    { id := documentStem
      title := String.mk (extract_title content)
      description := String.mk (extract_description content)
      author := String.mk (extract_author content)
      created_at := now
      updated_at := now
      version := String.mk (extract_version content) }
  (prd, extract_features content)

def upperChar (c : Char) : Char :=
  if 'a' ≤ c ∧ c ≤ 'z' then Char.ofNat (c.toNat - 32) else c

def isAsciiAlpha (c : Char) : Bool :=
  ('a' ≤ c ∧ c ≤ 'z') || ('A' ≤ c ∧ c ≤ 'Z')

/-- Python `str.title()` (ASCII): a letter is uppercased after a non-letter
and lowercased after a letter. -/
def pyTitleAux : List Char → Bool → List Char
  | [], _ => []
  | c :: rest, prevAlpha =>
    let isAl := isAsciiAlpha c
    (if isAl then (if prevAlpha then lowerChar c else upperChar c) else c) ::
      pyTitleAux rest isAl

def pyTitle (s : List Char) : List Char := pyTitleAux s false

/-- `LABEL\s*(\w+)` scan (case-insensitive label), for the first two
enhanced-priority patterns. -/
def scanWordAfterLabel (label : List Char) : List Char → Option (List Char)
  | [] => none
  | c :: rest =>
    if startsWithCI label (c :: rest) then
      let a := (c :: rest).drop label.length
      let w := (a.dropWhile isWs).takeWhile isWordChar
      if w.isEmpty then scanWordAfterLabel label rest else some w
    else scanWordAfterLabel label rest

/-- `\*\*(\w+)\s+priority\*\*` scan (case-insensitive). -/
def scanBoldWordPriority : List Char → Option (List Char)
  | [] => none
  | c :: rest =>
    let s := c :: rest
    let attempt :=
      if startsWithCS "**".toList s then
        let a := s.drop 2
        let w := a.takeWhile isWordChar
        if w.isEmpty then none
        else
          let a1 := a.drop w.length
          let ws := a1.takeWhile isWs
          if ws.isEmpty then none
          else if startsWithCI "priority**".toList (a1.drop ws.length) then some w
          else none
      else none
    match attempt with
    | some w => some w
    | none => scanBoldWordPriority rest

/-- `(\w+)\s+priority` scan (case-insensitive). -/
def scanWordPriority : List Char → Option (List Char)
  | [] => none
  | c :: rest =>
    let s := c :: rest
    let attempt :=
      let w := s.takeWhile isWordChar
      if w.isEmpty then none
      else
        let a1 := s.drop w.length
        let ws := a1.takeWhile isWs
        if ws.isEmpty then none
        else if startsWithCI "priority".toList (a1.drop ws.length) then some w
        else none
    match attempt with
    | some w => some w
    | none => scanWordPriority rest

/-- `priority\s*[:\-]\s*(\w+)` scan (case-insensitive). -/
def scanPriorityColonWord : List Char → Option (List Char)
  | [] => none
  | c :: rest =>
    let s := c :: rest
    let attempt :=
      if startsWithCI "priority".toList s then
        let a := (s.drop 8).dropWhile isWs
        match a with
        | ':' :: r | '-' :: r =>
          let w := (r.dropWhile isWs).takeWhile isWordChar
          if w.isEmpty then none else some w
        | _ => none
      else none
    match attempt with
    | some w => some w
    | none => scanPriorityColonWord rest

/-- The allowed titled keywords of `_extract_priority_from_text`. -/
def priorityKeywords : List String :=
  ["High", "Medium", "Low", "Critical", "Must", "Should", "Could"]

/-- `_extract_priority_from_text` (enhanced path): the five patterns in
order — for each, the first match's word is titled and kept only when it is
one of the keywords — then natural-language containment checks on the
lowercased text; default "Medium". -/
def extract_priority_from_text (text : List Char) : String :=
  let check (w : Option (List Char)) : Option String :=
    match w with
    | some w =>
      let p := String.mk (pyTitle (pyStrip w))
      if p ∈ priorityKeywords then some p else none
    | none => none
  let r := check (scanWordAfterLabel "**priority**:".toList text)
  let r := match r with
    | some p => some p
    | none => check (scanWordAfterLabel "priority:".toList text)
  let r := match r with
    | some p => some p
    | none => check (scanBoldWordPriority text)
  let r := match r with
    | some p => some p
    | none => check (scanWordPriority text)
  let r := match r with
    | some p => some p
    | none => check (scanPriorityColonWord text)
  match r with
  | some p => p
  | none =>
    let tl := lowerStr text
    if containsSub "critical".toList tl || containsSub "must have".toList tl
        || containsSub "high priority".toList tl then "High"
    else if containsSub "should have".toList tl
        || containsSub "medium priority".toList tl then "Medium"
    else if containsSub "could have".toList tl || containsSub "low priority".toList tl
        || containsSub "nice to have".toList tl then "Low"
    else "Medium"

/-- `_convert_priority_to_int`: the priority_map dictionary lookup with
default 0 (high). -/
def convert_priority_to_int (p : String) : Nat :=
  if p = "High" then 0
  else if p = "Critical" then 0
  else if p = "Must Have" then 0
  else if p = "Must" then 0
  else if p = "Medium" then 1
  else if p = "Should Have" then 1
  else if p = "Should" then 1
  else if p = "Low" then 2
  else if p = "Could Have" then 2
  else if p = "Could" then 2
  else 0

/-! ## XMLTemplateGenerator
(src/marvin/infrastructure/template_generator/xml_generator.py) -/

/-- A piece of a format template: literal text or a `{name}` placeholder.
This is the shallow embedding of the template string together with the
`re.findall(r"{([^{}]+)}", …)` extraction of `_fill_missing_placeholders`:
`placeholdersOf` lists exactly the extracted names (the templates in the
source contain only simple `{name}` fields and no literal braces). -/
inductive Chunk where
  | lit (s : String)
  | ph (name : String)
deriving Repr, DecidableEq

def placeholdersOf (tpl : List Chunk) : List String :=
  tpl.filterMap fun c =>
    match c with
    | Chunk.lit _ => none
    | Chunk.ph n => some n

/-- Context-dictionary lookup; bindings added later are put in front, so the
first match realises Python dict-update shadowing. -/
def ctxGet (ctx : List (String × String)) (k : String) : Option String :=
  (ctx.find? (fun p => p.1 = k)).map Prod.snd

/-- `template_content.format(**context)`: substitute every placeholder; a
placeholder missing from the context raises `KeyError`, modelled as `none`. -/
def formatTemplate (tpl : List Chunk) (ctx : List (String × String)) : Option String :=
  match tpl with
  | [] => some ""
  | Chunk.lit s :: rest => (formatTemplate rest ctx).map (fun r => s ++ r)
  | Chunk.ph n :: rest =>
    match ctxGet ctx n with
    | some v => (formatTemplate rest ctx).map (fun r => v ++ r)
    | none => none

/-- `_fill_missing_placeholders`: bind every template placeholder absent
from the context to the empty string. -/
def fill_missing_placeholders (tpl : List Chunk) (ctx : List (String × String)) :
    List (String × String) :=
  ctx ++ (placeholdersOf tpl).filterMap
    (fun n => if (ctxGet ctx n).isSome then none else some (n, ""))

/-- Total renderer used to state what the generator produces: placeholders
with no supplied value become the empty string. -/
def renderFilled (tpl : List Chunk) (ctx : List (String × String)) : String :=
  match tpl with
  | [] => ""
  | Chunk.lit s :: rest => s ++ renderFilled rest ctx
  | Chunk.ph n :: rest => (ctxGet ctx n).getD "" ++ renderFilled rest ctx

/-- `_generate_user_stories`: the literal f-string, one synthesized story
per feature. -/
def generate_user_stories (feature : Feature) : String :=
  let benefit :=
    if containsSub ['.'] feature.description.toList then
      String.mk (feature.description.toList.takeWhile (· != '.'))
    else feature.description
  let ac :=
    if feature.requirements.isEmpty then "TBD"
    else String.intercalate "; " (feature.requirements.take 3)
  "<Story id=\"" ++ feature.id ++ "_story_01\" \n                role=\"User\" \n                goal=\"to be able to " ++ feature.title
    ++ "\" \n                benefit=\"to " ++ benefit
    ++ "\"\n                acceptanceCriteria=\"" ++ ac ++ "\"/>"

/-- `lang.version or "latest"`: Python `or` treats `None` and the empty
string as falsy. -/
def versionOrLatest (v : Option String) : String :=
  match v with
  | some s => if s = "" then "latest" else s
  | none => "latest"

/-- `_generate_languages`. -/
def generate_languages (cb : Codebase) : String :=
  let langs := cb.technologies.filter (fun t => t.category = "language")
  if langs.isEmpty then "<Language name=\"\" version=\"\"/>"
  else
    let result := String.join (langs.map fun lang =>
      "<Language name=\"" ++ lang.name ++ "\" version=\"" ++ versionOrLatest lang.version
        ++ "\"/>\n      ")
    String.mk (pyStrip result.toList)

/-- `_generate_frameworks`. -/
def generate_frameworks (cb : Codebase) : String :=
  let fws := cb.technologies.filter (fun t => t.category = "framework")
  if fws.isEmpty then "<Framework name=\"\" version=\"\"/>"
  else
    let result := String.join (fws.map fun fw =>
      "<Framework name=\"" ++ fw.name ++ "\" version=\"" ++ versionOrLatest fw.version
        ++ "\"/>\n      ")
    String.mk (pyStrip result.toList)

/-- The context dictionary built by `generate_task_template` before
placeholder filling (`context.update` calls in source order; newer bindings
shadow older ones via list position). -/
def template_context (task : Task) (feature : Feature) (prd : PRD)
    (codebase : Option Codebase) (additional : List (String × String))
    (today : String) : List (String × String) :=
  let base := additional
  let d1 : List (String × String) :=
    [("task_id", task.task_id),
     ("sequence_number", toString task.sequence_number),
     ("depends_on", String.intercalate "," task.depends_on),
     ("author", prd.author),
     ("date", today),
     ("task_name", task.name),
     ("task_description", task.description),
     ("project_name", prd.title),
     ("project_description", prd.description)]
  let d2 : List (String × String) :=
    [("purpose", feature.description),
     ("functional_requirements", String.intercalate "\n" feature.requirements),
     ("user_stories", generate_user_stories feature)]
  let d3 : List (String × String) :=
    match codebase with
    | some cb =>
      [("languages", generate_languages cb),
       ("frameworks", generate_frameworks cb),
       ("architecture_pattern", String.intercalate ", " cb.architecture_patterns)]
    | none => []
  d3 ++ d2 ++ d1 ++ base

/-- `generate_task_template`: build the context, fill the missing
placeholders with empty strings, then format the template. -/
def generate_task_template (tpl : List Chunk) (task : Task) (feature : Feature)
    (prd : PRD) (codebase : Option Codebase) (additional : List (String × String))
    (today : String) : Option String :=
  let ctx := template_context task feature prd codebase additional today
  formatTemplate tpl (fill_missing_placeholders tpl ctx)

/-- The built-in default template of `XMLTemplateGenerator._load_template`
(the `template_content` triple-quoted constant), as one string. -/
def defaultTemplateContent : String :=
  String.intercalate "\n" [
    "<?xml version=\"1.0\" encoding=\"UTF-8\"?>",
    "<CodingTask>",
    "  <SequenceInfo>",
    "    <TaskID>{task_id}</TaskID>",
    "    <SequenceNumber>{sequence_number}</SequenceNumber>",
    "    <DependsOn>{depends_on}</DependsOn>",
    "  </SequenceInfo>",
    "",
    "  <Metadata>",
    "    <Author>{author}</Author>",
    "    <Date>{date}</Date>",
    "    <TemplateVersion>2.0</TemplateVersion>",
    "    <RevisionHistory>",
    "      <Change version=\"1.0\" date=\"{date}\" author=\"{author}\" summary=\"Initial version\"/>",
    "    </RevisionHistory>",
    "  </Metadata>",
    "",
    "  <Context>",
    "    <ProjectName>{project_name}</ProjectName>",
    "    <ProjectDescription>{project_description}</ProjectDescription>",
    "    <BusinessDomain>{business_domain}</BusinessDomain>",
    "    <Stakeholders>",
    "      <Stakeholder role=\"Product Owner\" name=\"{stakeholder_name}\" contact=\"{stakeholder_contact}\" responsibility=\"Feature prioritization\"/>",
    "    </Stakeholders>",
    "    <Assumptions>{assumptions}</Assumptions>",
    "    <Risks mitigationPlan=\"{risk_mitigation}\">{risks}</Risks>",
    "    <Dependencies>",
    "      <Upstream>{upstream_dependencies}</Upstream>",
    "      <Downstream>{downstream_dependencies}</Downstream>",
    "    </Dependencies>",
    "    <Constraints>{constraints}</Constraints>",
    "  </Context>",
    "",
    "  <TechnologyStack>",
    "    <Languages>",
    "      {languages}",
    "    </Languages>",
    "    <Frameworks>",
    "      {frameworks}",
    "    </Frameworks>",
    "    <PackageManagers>{package_managers}</PackageManagers>",
    "    <DatabaseSystems>{database_systems}</DatabaseSystems>",
    "    <CloudProvider>{cloud_provider}</CloudProvider>",
    "    <Containerization>{containerization}</Containerization>",
    "    <OtherTechnologies>",
    "      {other_technologies}",
    "    </OtherTechnologies>",
    "  </TechnologyStack>",
    "",
    "  <Architecture>",
    "    <Pattern>{architecture_pattern}</Pattern>",
    "    <ArchitectureDecisionRecords>",
    "      {adrs}",
    "    </ArchitectureDecisionRecords>",
    "    <DomainModel>{domain_model}</DomainModel>",
    "  </Architecture>",
    "",
    "  <Task>",
    "    <TaskName>{task_name}</TaskName>",
    "    <UserStories>",
    "      {user_stories}",
    "    </UserStories>",
    "    <Description>{task_description}</Description>",
    "    <Purpose>{purpose}</Purpose>",
    "    <Scope>",
    "      <InScope>{in_scope}</InScope>",
    "      <OutOfScope>{out_of_scope}</OutOfScope>",
    "    </Scope>",
    "    <AffectedComponents>",
    "      <Files>{affected_files}</Files>",
    "      <Folders>{affected_folders}</Folders>",
    "    </AffectedComponents>",
    "  </Task>",
    "",
    "  <ExpectedOutcome>",
    "    <FunctionalRequirements>{functional_requirements}</FunctionalRequirements>",
    "    <NonFunctionalRequirements>",
    "      <Performance>{performance}</Performance>",
    "      <Scalability>{scalability}</Scalability>",
    "      <Security level=\"{security_level}\">{security}</Security>",
    "      <Accessibility targetWCAGLevel=\"{wcag_level}\">{accessibility}</Accessibility>",
    "      <Internationalization locales=\"{locales}\">{i18n}</Internationalization>",
    "      <Observability SLOs=\"{slos}\">{observability}</Observability>",
    "    </NonFunctionalRequirements>",
    "    <AcceptanceCriteria>{acceptance_criteria}</AcceptanceCriteria>",
    "  </ExpectedOutcome>",
    "",
    "  <Implementation>",
    "    <CodeStandardsRef link=\"{code_standards_link}\">{code_standards}</CodeStandardsRef>",
    "    <APIContract type=\"{api_contract_type}\" link=\"{api_contract_link}\">{api_contract}</APIContract>",
    "    <DesignPatterns>{design_patterns}</DesignPatterns>",
    "    <Security>",
    "      <ThreatModel>{threat_model}</ThreatModel>",
    "      <Auth>{auth}</Auth>",
    "      <DataClassification>{data_classification}</DataClassification>",
    "      <ComplianceStandards>{compliance_standards}</ComplianceStandards>",
    "    </Security>",
    "    <Testing>",
    "      <TestFramework>{test_framework}</TestFramework>",
    "      <CoverageTarget>{coverage_target}</CoverageTarget>",
    "      <QualityGates>{quality_gates}</QualityGates>",
    "    </Testing>",
    "    <CI_CD_Pipeline>",
    "      <Toolchain>{ci_cd_toolchain}</Toolchain>",
    "      <Environments dev=\"{dev_env}\" test=\"{test_env}\" staging=\"{staging_env}\" prod=\"{prod_env}\"/>",
    "      <DeploymentStrategy>{deployment_strategy}</DeploymentStrategy>",
    "      <RollbackPlan>{rollback_plan}</RollbackPlan>",
    "    </CI_CD_Pipeline>",
    "    <LoggingMonitoring>",
    "      <LogSchema>{log_schema}</LogSchema>",
    "      <AlertingRules>{alerting_rules}</AlertingRules>",
    "    </LoggingMonitoring>",
    "    <DataMigration>",
    "      <Scope>{data_migration_scope}</Scope>",
    "      <DryRunPlan>{dry_run_plan}</DryRunPlan>",
    "      <Validation>{data_validation}</Validation>",
    "      <Fallback>{data_fallback}</Fallback>",
    "    </DataMigration>",
    "    <PerformanceConsiderations>{performance_considerations}</PerformanceConsiderations>",
    "  </Implementation>",
    "",
    "  <References>",
    "    <ExistingCode link=\"{existing_code_link}\">{existing_code}</ExistingCode>",
    "    <Documentation link=\"{documentation_link}\">{documentation}</Documentation>",
    "    <ExternalResources link=\"{external_resources_link}\">{external_resources}</ExternalResources>",
    "  </References>",
    "",
    "  <Deliverables>",
    "    <Checklist>",
    "      <Item done=\"false\">Repo branch created</Item>",
    "      <Item done=\"false\">Unit tests pass at 90% coverage</Item>",
    "      <Item done=\"false\">Security review signed-off</Item>",
    "    </Checklist>",
    "    <ExpectedTimeframe>{expected_timeframe}</ExpectedTimeframe>",
    "  </Deliverables>",
    "",
    "  <Glossary>",
    "    {glossary}",
    "  </Glossary>",
    "</CodingTask>",
    ""]

/-- `XMLTemplateGenerator._load_template`: a template path that is set,
non-empty (Python truthiness) and readable is used; otherwise the built-in
default template — a specified-but-missing file silently falls back, it is
not an error.  `fileRead` models `os.path.exists` + `open().read()`. -/
def load_template_content (templatePath : Option String)
    (fileRead : String → Option String) : String :=
  match templatePath with
  | some p =>
    if p = "" then defaultTemplateContent
    else
      match fileRead p with
      | some content => content
      | none => defaultTemplateContent
  | none => defaultTemplateContent

/-- `validate_xml`: well-formedness is delegated to the external `lxml`
parser (modelled as a parameter); a parse error becomes `(False, message)`
rather than an exception. -/
def validate_xml (parse : String → Except String Unit) (xml : String) :
    Bool × Option String :=
  match parse xml with
  | Except.ok _ => (true, none)
  | Except.error e => (false, some e)

/-! ## TemplateGenerationAgent (src/marvin/core/agents/template_generation.py) -/

/-- `TemplateGenerationAgent._prepare_additional_context`. -/
def prepare_additional_context (task : Task) (feature : Feature) (prd : PRD)
    (codebase : Option Codebase) : List (String × String) :=
  let business_domain :=
    if containsSub [':'] prd.title.toList then
      String.mk (pyStrip (((splitOnChar ':' prd.title.toList).drop 1).headD []))
    else prd.title
  let base : List (String × String) :=
    [("business_domain", business_domain),
     ("assumptions", "Feature '" ++ feature.title ++ "' kann unabhängig implementiert werden."),
     ("risks", "Änderungen an " ++ feature.title ++ " können andere Komponenten beeinflussen."),
     ("risk_mitigation", "Umfangreiche Tests durchführen")]
  let cbPart : List (String × String) :=
    match codebase with
    | some cb =>
      let affected := cb.components.filter
        (fun comp => containsSub (lowerStr comp.name.toList) (lowerStr feature.title.toList))
      let files := (affected.filter (fun comp => comp.type = "file")).map (fun comp => comp.path)
      let folders := (affected.filter (fun comp => comp.type = "directory")).map (fun comp => comp.path)
      [("affected_files", String.intercalate ", " (files.take 5)),
       ("affected_folders", String.intercalate ", " (folders.take 3))]
    | none => []
  let acPart : List (String × String) :=
    if feature.requirements.isEmpty then []
    else [("acceptance_criteria",
           String.intercalate "\n" (feature.requirements.map (fun r => "- " ++ r)))]
  base ++ cbPart ++ acPart ++ [("expected_timeframe", "1-2 Tage")]

/-- The per-task output filename of `TemplateGenerationAgent.execute`:
`f"{task.sequence_number:02d}_{feature.id}_{task.task_id}.xml"`. -/
def template_output_filename (task : Task) (feature : Feature) : String :=
  String.mk (pad2 task.sequence_number) ++ "_" ++ feature.id ++ "_" ++ task.task_id ++ ".xml"

/-- `os.path.join(output_dir, filename)` for a directory without a trailing
separator. -/
def template_generation_output_path (output_dir : String) (task : Task)
    (feature : Feature) : String :=
  output_dir ++ "/" ++ template_output_filename task feature

/-- `TemplateGenerationAgent.execute`: generate, validate, and raise
`ValueError` when the validation flag is false; on success the template is
saved and its path returned. -/
def template_generation_execute (parse : String → Except String Unit)
    (tpl : List Chunk) (task : Task) (feature : Feature) (prd : PRD)
    (output_dir : String) (codebase : Option Codebase) (today : String) :
    Except String String :=
  let additional := prepare_additional_context task feature prd codebase
  match generate_task_template tpl task feature prd codebase additional today with
  | none => Except.error "KeyError"
  | some content =>
    match validate_xml parse content with
    | (true, _) => Except.ok (template_generation_output_path output_dir task feature)
    | (false, e) =>
      Except.error ("Generiertes Template ist ungültig: " ++ e.getD "")

/-- The per-task template filename of `ProcessPRDUseCase._save_results`:
`f"{task.sequence_number:03d}_{task.name.replace(\' \', \'_\')}.xml"`. -/
def use_case_template_filename (sequence_number : Nat) (name : String) : String :=
  String.mk (pad3 sequence_number) ++ "_"
    ++ String.mk (name.toList.map (fun c => if c = ' ' then '_' else c)) ++ ".xml"

/-- The filename convention as the claim words it:
`{sequence:03d}_{featureId}_{taskId}.<ext>` (three-digit zero-padded
sequence).  Stated from the spec only to exhibit the divergence from the
source's two-digit convention. -/
def spec_claimed_filename (sequence_number : Nat) (featureId taskId : String) : String :=
  String.mk (pad3 sequence_number) ++ "_" ++ featureId ++ "_" ++ taskId ++ ".xml"

/-- The id-generation rule as the claim words it: every non-alphanumeric,
non-whitespace character removed (hyphens included), whitespace collapsed to
single underscores, zero-padded positional index appended.  Stated from the
spec only to exhibit the divergence from the source, which keeps hyphens. -/
def claimed_feature_id (featureName : List Char) (index : Nat) : List Char :=
  let slug := lowerStr featureName
  let slug := slug.filter (fun c => ('a' ≤ c ∧ c ≤ 'z') || isDigit c || isWs c)
  let slug := collapseWs slug
  let slug := stripUnderscores slug
  slug ++ '_' :: pad2 index

/-- `_generate_feature_id` as amended: identical to the claim's rule except
that hyphens are kept. -/
def amended_feature_id (featureName : List Char) (index : Nat) : List Char :=
  stripUnderscores (collapseWs ((lowerStr featureName).filter
    (fun c => ('a' ≤ c ∧ c ≤ 'z') || isDigit c || isWs c || c = '-')))
    ++ '_' :: pad2 index

/-! ## Concrete inputs for the sequencer claims -/

/-- Feature 1 of the two-feature end-to-end scenario. -/
def feat1 : Feature := { id := "f1", title := "Feature 1", description := "d1" }

/-- Feature 2 depends (by id) on feature 1. -/
def feat2 : Feature :=
  { id := "f2", title := "Feature 2", description := "d2", dependencies := ["f1"] }

/-- A two-feature PRD in which feature 2 depends on feature 1. -/
def twoFeaturePrd : PRD :=
  { id := "prd1", title := "Demo", description := "", author := "someone",
    version := "1.0", features := [feat1, feat2] }

/-- The synthetic 3-feature cycle A→B→C→A (each feature depends on the
next, default priority). -/
def cycFeatures : List Feature :=
  [ { id := "A", title := "A", description := "", dependencies := ["B"] },
    { id := "B", title := "B", description := "", dependencies := ["C"] },
    { id := "C", title := "C", description := "", dependencies := ["A"] } ]

def cycGraph : DGraph := build_dependency_graph cycFeatures

/-- The working graph after the loop removed the minimum edge (A, B). -/
def cycAfterRemoval : DGraph := ⟨[("A", []), ("B", ["C"]), ("C", ["A"])]⟩

/-! ## Concrete inputs for the template claims -/

def c9task : Task :=
  { task_id := "task-1", sequence_number := 1, name := "Implement Login",
    description := "d", feature_id := "feat" }

def c9feature : Feature := { id := "feat", title := "Login", description := "d" }

def c9prd : PRD :=
  { id := "prd-9", title := "Demo App", description := "d", author := "a", version := "1.0" }

def c6task : Task :=
  { task_id := "task-6", sequence_number := 3, name := "Implement Cart",
    description := "d", feature_id := "cart" }

def c6feature : Feature := { id := "cart", title := "Cart", description := "d" }

def c6prd : PRD :=
  { id := "prd-6", title := "Shop", description := "d", author := "a", version := "1.0" }

def c6tpl : List Chunk :=
  [Chunk.lit "<T>", Chunk.ph "task_id", Chunk.lit "</T>"]

end Marvin

open Marvin

/-! ## Lemmas: the cycle-resolution loop always terminates acyclically -/

/-- With zero edges, every neighbor list is empty. -/
theorem neighbors_eq_nil_of_edgeCount_zero {g : DGraph} (h : g.edgeCount = 0)
    (id' : String) : g.neighbors id' = [] := by
  unfold DGraph.neighbors
  cases hf : g.nodes.find? (fun p => p.1 = id') with
  | none => rfl
  | some p =>
    have hp : p ∈ g.nodes := List.mem_of_find?_eq_some hf
    have hlen : p.2.length = 0 := by
      have hall := (List.sum_eq_zero_iff).mp h
      exact hall _ (List.mem_map_of_mem (fun q => q.2.length) hp)
    simpa using List.length_eq_zero.mp hlen

/-- With zero edges the DFS cycle check reports no cycle. -/
theorem hasCycleAux_eq_false_of_edgeCount_zero {g : DGraph} (h : g.edgeCount = 0) :
    ∀ (l : List String) (visited : List String), hasCycleAux g l visited = false := by
  intro l
  induction l with
  | nil => intro visited; rfl
  | cons n rest ih =>
    intro visited
    unfold hasCycleAux
    by_cases hv : n ∈ visited
    · simp [hv, ih]
    · simp [hv, cycNode, neighbors_eq_nil_of_edgeCount_zero h, ih]

theorem hasCycle_eq_false_of_edgeCount_zero {g : DGraph} (h : g.edgeCount = 0) :
    g.hasCycle = false :=
  hasCycleAux_eq_false_of_edgeCount_zero h g.keys []

theorem foldEdges_ok {g : DGraph} {prios : String → Nat} {a : String} :
    ∀ (bs : List String) (best : Option (Nat × String × String)),
      (∀ x ∈ bs, IsEdge g a x) → OptEdgeOk g best → OptEdgeOk g (foldEdges prios a bs best) := by
  intro bs
  induction bs with
  | nil => intro best _ hbest; exact hbest
  | cons b bs ih =>
    intro best hsub hbest
    unfold foldEdges
    cases best with
    | none =>
      exact ih _ (fun x hx => hsub x (List.mem_cons_of_mem _ hx))
        (hsub b (List.mem_cons_self _ _))
    | some e =>
      obtain ⟨bp, e₁, e₂⟩ := e
      by_cases hlt : prios a + prios b < bp
      · simp only [hlt, if_pos]
        exact ih _ (fun x hx => hsub x (List.mem_cons_of_mem _ hx))
          (hsub b (List.mem_cons_self _ _))
      · simp only [hlt, if_neg, not_false_iff]
        exact ih _ (fun x hx => hsub x (List.mem_cons_of_mem _ hx)) hbest

theorem findMinEdgeAux_ok {g : DGraph} {prios : String → Nat} :
    ∀ (entries : List (String × List String)) (best : Option (Nat × String × String)),
      (∀ p ∈ entries, p ∈ g.nodes) → OptEdgeOk g best →
      OptEdgeOk g (findMinEdgeAux prios entries best) := by
  intro entries
  induction entries with
  | nil => intro best _ hbest; exact hbest
  | cons p rest ih =>
    intro best hent hbest
    obtain ⟨a, tos⟩ := p
    unfold findMinEdgeAux
    refine ih _ (fun q hq => hent q (List.mem_cons_of_mem _ hq)) ?_
    refine foldEdges_ok tos best (fun x hx => ?_) hbest
    exact ⟨(a, tos), hent _ (List.mem_cons_self _ _), rfl, hx⟩

/-- Whatever edge the minimum search returns is present in the graph. -/
theorem findMinEdge_isEdge {g : DGraph} {prios : String → Nat} {p : Nat} {a b : String}
    (h : findMinEdge prios g = some (p, a, b)) : IsEdge g a b := by
  have := @findMinEdgeAux_ok g prios g.nodes none (fun _ hq => hq) trivial
  rw [findMinEdge] at h
  rw [h] at this
  exact this

theorem foldEdges_some {prios : String → Nat} {a : String} :
    ∀ (bs : List String) (x : Nat × String × String),
      ∃ y, foldEdges prios a bs (some x) = some y := by
  intro bs
  induction bs with
  | nil => intro x; exact ⟨x, rfl⟩
  | cons b bs ih =>
    intro x
    obtain ⟨bp, e⟩ := x
    unfold foldEdges
    by_cases hlt : prios a + prios b < bp
    · simpa [hlt] using ih _
    · simpa [hlt] using ih _

theorem foldEdges_some_of_ne_nil {prios : String → Nat} {a : String} {bs : List String}
    (h : bs ≠ []) (best : Option (Nat × String × String)) :
    ∃ y, foldEdges prios a bs best = some y := by
  cases bs with
  | nil => exact absurd rfl h
  | cons b bs =>
    unfold foldEdges
    cases best with
    | none => exact foldEdges_some bs _
    | some e =>
      obtain ⟨bp, e⟩ := e
      by_cases hlt : prios a + prios b < bp
      · simpa [hlt] using foldEdges_some bs _
      · simpa [hlt] using foldEdges_some bs _

theorem findMinEdgeAux_some_of_some {prios : String → Nat} :
    ∀ (entries : List (String × List String)) (x : Nat × String × String),
      ∃ y, findMinEdgeAux prios entries (some x) = some y := by
  intro entries
  induction entries with
  | nil => intro x; exact ⟨x, rfl⟩
  | cons p rest ih =>
    intro x
    obtain ⟨a, tos⟩ := p
    unfold findMinEdgeAux
    cases htos : tos with
    | nil => exact ih x
    | cons b bs =>
      obtain ⟨y, hy⟩ := @foldEdges_some_of_ne_nil prios a (b :: bs) (by simp) (some x)
      rw [hy]
      exact ih y

theorem findMinEdgeAux_some {prios : String → Nat} :
    ∀ (entries : List (String × List String)),
      (∃ p ∈ entries, p.2 ≠ []) →
      ∀ best, ∃ y, findMinEdgeAux prios entries best = some y := by
  intro entries
  induction entries with
  | nil => rintro ⟨p, hp, _⟩ best; exact absurd hp (List.not_mem_nil p)
  | cons q rest ih =>
    rintro ⟨p, hp, hpne⟩ best
    obtain ⟨a, tos⟩ := q
    unfold findMinEdgeAux
    rcases List.mem_cons.mp hp with heq | hmem
    · subst heq
      obtain ⟨y, hy⟩ := @foldEdges_some_of_ne_nil prios a tos hpne best
      rw [hy]
      exact findMinEdgeAux_some_of_some rest y
    · cases hfold : foldEdges prios a tos best with
      | none => exact ih ⟨p, hmem, hpne⟩ none
      | some y => exact findMinEdgeAux_some_of_some rest y

/-- When the graph still has edges, the minimum-edge search finds one. -/
theorem findMinEdge_some {g : DGraph} {prios : String → Nat}
    (h : g.edgeCount ≠ 0) : ∃ y, findMinEdge prios g = some y := by
  have hex : ∃ p ∈ g.nodes, p.2 ≠ [] := by
    by_contra hall
    push_neg at hall
    apply h
    apply List.sum_eq_zero_iff.mpr
    intro x hx
    obtain ⟨p, hp, hpx⟩ := List.mem_map.mp hx
    simp [← hpx, hall p hp]
  exact findMinEdgeAux_some g.nodes hex none

/-- Removing a present edge strictly decreases the edge count. -/
theorem edgeCount_removeEdge_lt {g : DGraph} {a b : String} (h : IsEdge g a b) :
    (removeEdge g a b).edgeCount < g.edgeCount := by
  obtain ⟨p, hp, hpa, hpb⟩ := h
  unfold removeEdge DGraph.edgeCount
  simp only [List.map_map]
  apply List.sum_lt_sum
  · intro q hq
    by_cases hqa : q.1 = a
    · simpa [Function.comp, hqa] using (List.erase_sublist b q.2).length_le
    · simp [Function.comp, hqa]
  · refine ⟨p, hp, ?_⟩
    have hne : p.2.length ≠ 0 := by
      intro h0
      rw [List.length_eq_zero.mp h0] at hpb
      exact List.not_mem_nil b hpb
    simp only [Function.comp, hpa, if_pos]
    rw [List.length_erase_of_mem hpb]
    omega

/-- The edge-removal loop exits with an acyclic graph whenever its fuel
exceeds the number of edges. -/
theorem resolveLoop_acyclic (prios : String → Nat) :
    ∀ (fuel : Nat) (g : DGraph), g.edgeCount < fuel →
      ∃ g', resolveLoop prios fuel g = some g' ∧ g'.hasCycle = false := by
  intro fuel
  induction fuel with
  | zero => intro g h; exact absurd h (Nat.not_lt_zero _)
  | succ n ih =>
    intro g h
    by_cases hc : g.hasCycle = true
    · have hne : g.edgeCount ≠ 0 := by
        intro h0
        rw [hasCycle_eq_false_of_edgeCount_zero h0] at hc
        exact Bool.false_ne_true hc
      obtain ⟨y, hfind⟩ := @findMinEdge_some g prios hne
      obtain ⟨p, a, b⟩ := y
      have hedge : IsEdge g a b := findMinEdge_isEdge hfind
      have hlt : (removeEdge g a b).edgeCount < n :=
        Nat.lt_of_lt_of_le (edgeCount_removeEdge_lt hedge) (Nat.lt_succ_iff.mp h)
      obtain ⟨g', hg', hcy⟩ := ih (removeEdge g a b) hlt
      exact ⟨g', by simp [resolveLoop, hc, hfind, hg'], hcy⟩
    · have hcf : g.hasCycle = false := Bool.not_eq_true _ |>.mp hc
      exact ⟨g, by simp [resolveLoop, hcf], hcf⟩

/-- `_resolve_cyclic_dependencies` never raises. -/
theorem resolve_cyclic_dependencies_ok (features : List Feature) (g : DGraph) :
    ∃ l, resolve_cyclic_dependencies features g = Except.ok l := by
  obtain ⟨g', hg', hcy⟩ :=
    resolveLoop_acyclic (prioOf features) (g.edgeCount + 1) g (Nat.lt_succ_self _)
  refine ⟨(topoAux g' g'.keys ([], [])).2.reverse, ?_⟩
  unfold resolve_cyclic_dependencies
  rw [hg']
  simp [DGraph.topological_sort, hcy]

/-- `SequencePlannerAgent.execute` always returns a workflow: the
`ValueError` of the plain topological sort is caught and the fallback never
raises. -/
theorem sequencePlannerExecute_ok (prd : PRD) (cb : Option Codebase) (now : Nat) :
    ∃ w, sequencePlannerExecute prd cb now = Except.ok w := by
  unfold sequencePlannerExecute
  cases htop : (build_dependency_graph prd.features).topological_sort with
  | ok s =>
    simp only [htop]
    exact ⟨_, rfl⟩
  | error e =>
    obtain ⟨l, hl⟩ := resolve_cyclic_dependencies_ok prd.features (build_dependency_graph prd.features)
    simp only [htop, hl]
    exact ⟨_, rfl⟩

/-- C10: `Workflow.add_task` re-sorts the task list on every insertion, so
after any `add_task` call the workflow's tasks are sorted by non-decreasing
`sequence_number`, regardless of the previous state of the list, and the new
list is a permutation of the old list plus the new task. -/
theorem C10_add_task_keeps_tasks_sorted (w : Marvin.Workflow) (t : Marvin.Task) (now : Nat) :
    ((w.add_task t now).tasks.Sorted Marvin.taskLe)
    ∧ ((w.add_task t now).tasks.Perm (w.tasks ++ [t])) := by
  constructor
  · exact List.sorted_insertionSort Marvin.taskLe (w.tasks ++ [t])
  · exact List.perm_insertionSort Marvin.taskLe (w.tasks ++ [t])

/-- C1: evaluation of the sequencer at the claim's own scenario (a
two-feature PRD where feature 2 depends on feature 1, referenced by id).
The agent does emit exactly two tasks with sequence numbers 1 and 2, and
feature 2's task depends on `task_f1`; but the post-order DFS of
`topological_sort` is reversed in the source, so sequence number 1 goes to
feature 2's task and sequence number 2 to feature 1's task — the opposite
of the claimed assignment (and the dependency lookup is by feature-id
equality, not by name match). -/
theorem C1_two_feature_prd_sequencer_evaluation :
    (Marvin.sequencePlannerExecute Marvin.twoFeaturePrd none 0).toOption.map
        (fun w => w.tasks.map (fun t => (t.task_id, t.sequence_number, t.depends_on)))
      = some [("task_f2", 1, ["task_f1"]), ("task_f1", 2, [])] := by
  rfl

/-- C2: cycle resolution never raises — for every feature list and graph,
`_resolve_cyclic_dependencies` returns a sequence (the minimum-priority-edge
removal loop terminates on an acyclic graph, which the final topological
sort accepts); the synthetic 3-feature cycle A→B→C→A yields the total order
[B, C, A], a permutation of the three features, with the working graph
acyclic after removing the minimum edge (A, B); and
`SequencePlannerAgent.execute` always returns a workflow, the cyclic-graph
`ValueError` being caught inside it. -/
theorem C2_cycle_resolution_never_raises :
    (∀ (features : List Marvin.Feature) (g : Marvin.DGraph),
        ∃ l, Marvin.resolve_cyclic_dependencies features g = Except.ok l)
    ∧ Marvin.resolve_cyclic_dependencies Marvin.cycFeatures Marvin.cycGraph
        = Except.ok ["B", "C", "A"]
    ∧ Marvin.resolveLoop (Marvin.prioOf Marvin.cycFeatures)
        (Marvin.cycGraph.edgeCount + 1) Marvin.cycGraph = some Marvin.cycAfterRemoval
    ∧ Marvin.cycAfterRemoval.hasCycle = false
    ∧ (["B", "C", "A"] : List String).Perm Marvin.cycGraph.keys
    ∧ (∀ (prd : Marvin.PRD) (cb : Option Marvin.Codebase) (now : Nat),
        ∃ w, Marvin.sequencePlannerExecute prd cb now = Except.ok w) := by
  refine ⟨resolve_cyclic_dependencies_ok, ?_, ?_, ?_, ?_,
    sequencePlannerExecute_ok⟩
  · rfl
  · rfl
  · rfl
  · decide

/-! ## Lemmas: placeholder filling resolves every placeholder -/

theorem ctxGet_append_of_some {ctx l : List (String × String)} {k : String} {v : String}
    (h : ctxGet ctx k = some v) : ctxGet (ctx ++ l) k = some v := by
  induction ctx with
  | nil => simp [ctxGet, List.find?] at h
  | cons p rest ih =>
    unfold ctxGet at h ⊢
    by_cases hp : p.1 = k
    · simpa [List.find?, hp] using h
    · simp only [List.cons_append, List.find?, hp] at h ⊢
      simp only [decide_eq_true_eq, hp, decide_False] at h ⊢
      exact ih h

theorem ctxGet_append_of_none {ctx l : List (String × String)} {k : String}
    (h : ctxGet ctx k = none) : ctxGet (ctx ++ l) k = ctxGet l k := by
  induction ctx with
  | nil => simp
  | cons p rest ih =>
    unfold ctxGet at h ⊢
    by_cases hp : p.1 = k
    · simp [List.find?, hp] at h
    · simp only [List.cons_append, List.find?, hp, decide_False] at h ⊢
      exact ih h

theorem ctxGet_fillExtras {ctx : List (String × String)} {n : String}
    (hn : ctxGet ctx n = none) :
    ∀ (ns : List String), n ∈ ns →
      ctxGet (ns.filterMap
        (fun m => if (ctxGet ctx m).isSome then none else some (m, ""))) n = some "" := by
  intro ns
  induction ns with
  | nil => intro h; exact absurd h (List.not_mem_nil n)
  | cons m rest ih =>
    intro hmem
    by_cases hm : m = n
    · subst hm
      simp only [List.filterMap_cons, hn, Option.isSome_none, Bool.false_eq_true, if_neg,
        not_false_iff]
      simp [ctxGet, List.find?]
    · have hmem' : n ∈ rest := by
        cases List.mem_cons.mp hmem with
        | inl h => exact absurd h.symm hm
        | inr h => exact h
      simp only [List.filterMap_cons]
      cases hsome : (ctxGet ctx m).isSome with
      | true => simpa [hsome] using ih hmem'
      | false =>
        simp only [hsome, Bool.false_eq_true, if_neg, not_false_iff]
        unfold ctxGet
        simp only [List.find?, hm, decide_False]
        exact ih hmem'

theorem ctxGet_fill {tpl : List Chunk} {ctx : List (String × String)} {n : String}
    (hn : n ∈ placeholdersOf tpl) :
    ctxGet (fill_missing_placeholders tpl ctx) n = some ((ctxGet ctx n).getD "") := by
  unfold fill_missing_placeholders
  cases h : ctxGet ctx n with
  | some v => simpa [h] using ctxGet_append_of_some h
  | none =>
    rw [ctxGet_append_of_none h]
    simpa [h] using ctxGet_fillExtras h (placeholdersOf tpl) hn

theorem placeholdersOf_cons_lit (s : String) (rest : List Chunk) :
    placeholdersOf (Chunk.lit s :: rest) = placeholdersOf rest := by
  simp [placeholdersOf]

theorem placeholdersOf_cons_ph (n : String) (rest : List Chunk) :
    placeholdersOf (Chunk.ph n :: rest) = n :: placeholdersOf rest := by
  simp [placeholdersOf]

theorem formatTemplate_fill (tplFull : List Chunk) (ctx : List (String × String)) :
    ∀ (tp : List Chunk), (∀ n, n ∈ placeholdersOf tp → n ∈ placeholdersOf tplFull) →
      formatTemplate tp (fill_missing_placeholders tplFull ctx) = some (renderFilled tp ctx) := by
  intro tp
  induction tp with
  | nil => intro _; rfl
  | cons c rest ih =>
    intro hsub
    cases c with
    | lit s =>
      have hr := ih (fun n hn => hsub n (by rw [placeholdersOf_cons_lit]; exact hn))
      simp [formatTemplate, renderFilled, hr]
    | ph n =>
      have hn : n ∈ placeholdersOf tplFull :=
        hsub n (by rw [placeholdersOf_cons_ph]; exact List.mem_cons_self _ _)
      have hr := ih (fun m hm =>
        hsub m (by rw [placeholdersOf_cons_ph]; exact List.mem_cons_of_mem _ hm))
      simp [formatTemplate, renderFilled, hr, ctxGet_fill hn]

/-- `generate_task_template` always succeeds and substitutes missing
placeholders with the empty string. -/
theorem generate_task_template_eq (tpl : List Chunk) (task : Task) (feature : Feature)
    (prd : PRD) (codebase : Option Codebase) (additional : List (String × String))
    (today : String) :
    generate_task_template tpl task feature prd codebase additional today
      = some (renderFilled tpl (template_context task feature prd codebase additional today)) := by
  unfold generate_task_template
  exact formatTemplate_fill tpl _ tpl (fun _ h => h)

/-! ## Lemmas: subsection pass and feature-id injectivity -/

/-- Without any `####` marker the subsection pass finds nothing. -/
theorem subsecScan_eq_nil : ∀ (fc : List Char),
    containsSub "####".toList fc = false → subsecScan fc = [] := by
  intro fc
  induction fc with
  | nil => intro _; simp only [subsecScan]
  | cons c rest ih =>
    intro h
    have hsplit : startsWithCS "####".toList (c :: rest) = false
        ∧ containsSub "####".toList rest = false := by
      have heq : containsSub "####".toList (c :: rest)
          = (startsWithCS "####".toList (c :: rest) || containsSub "####".toList rest) := rfl
      rw [heq] at h
      exact ⟨(Bool.or_eq_false_iff.mp h).1, (Bool.or_eq_false_iff.mp h).2⟩
    have htry : trySubsec (c :: rest) = none := by
      unfold trySubsec
      rw [hsplit.1]
      rfl
    simp only [subsecScan, htry]
    exact ih hsplit.2

set_option maxRecDepth 16384 in
theorem pad2_injOn : ∀ (a b : Fin 100), a ≠ b → pad2 a.val ≠ pad2 b.val := by decide

set_option maxRecDepth 16384 in
theorem pad2_length : ∀ (a : Fin 100), (pad2 a.val).length = 2 := by decide

/-- Distinct (two-digit) positional indices give distinct feature ids,
whatever the titles: the id determines its two-digit suffix. -/
theorem generate_feature_id_inj (t1 t2 : List Char) {i j : Nat}
    (hi : i < 100) (hj : j < 100) (hij : i ≠ j) :
    generate_feature_id t1 i ≠ generate_feature_id t2 j := by
  intro heq
  unfold generate_feature_id at heq
  have hrev := congrArg List.reverse heq
  simp only [List.reverse_append, List.reverse_cons] at hrev
  -- hrev : (pad2 i).reverse ++ ['_'] ++ s1.reverse = (pad2 j).reverse ++ ['_'] ++ s2.reverse
  have hlen : ((pad2 i).reverse).length = ((pad2 j).reverse).length := by
    simp [List.length_reverse, pad2_length ⟨i, hi⟩, pad2_length ⟨j, hj⟩]
  have hpads : (pad2 i).reverse = (pad2 j).reverse := by
    have := List.append_inj (by simpa [List.append_assoc] using hrev) hlen
    exact this.1
  have : pad2 i = pad2 j := by
    have := congrArg List.reverse hpads
    simpa using this
  exact pad2_injOn ⟨i, hi⟩ ⟨j, hj⟩ (fun hf => hij (by simpa using congrArg Fin.val hf)) this

/-- C3: markdown analysis of a text in which none of the title patterns, the
version pattern, the author pattern, or the features-section pattern match
returns (without raising — every branch is total) a document with title
"Unknown PRD", version "0.0.0", author "Unknown", and an empty feature
list. -/
theorem C3_unstructured_markdown_defaults (content : List Char) (stem : String) (now : Nat)
    (ht1 : titleScanP (some "Product Requirements Document:".toList) content true = none)
    (ht2 : titleScanP (some "PRD:".toList) content true = none)
    (ht3 : titleScanP none content true = none)
    (hv : scanVersion content = none)
    (ha : scanLabelCI "author:".toList content = none)
    (hf : featuresZoneScan content = none) :
    (analyze_markdown_basic content stem now).1.title = "Unknown PRD"
    ∧ (analyze_markdown_basic content stem now).1.version = "0.0.0"
    ∧ (analyze_markdown_basic content stem now).1.author = "Unknown"
    ∧ (analyze_markdown_basic content stem now).2 = [] := by
  unfold analyze_markdown_basic extract_title extract_version extract_author extract_features
  rw [ht1, ht2, ht3, hv, ha, hf]
  exact ⟨rfl, rfl, rfl, rfl⟩

/-- Witness for C3 at a concrete unstructured blob. -/
theorem C3_unstructured_markdown_defaults_witness :
    (analyze_markdown_basic "just some plain text\nsecond line, nothing else".toList
        "doc" 0).1.title = "Unknown PRD"
    ∧ (analyze_markdown_basic "just some plain text\nsecond line, nothing else".toList
        "doc" 0).1.version = "0.0.0"
    ∧ (analyze_markdown_basic "just some plain text\nsecond line, nothing else".toList
        "doc" 0).1.author = "Unknown"
    ∧ (analyze_markdown_basic "just some plain text\nsecond line, nothing else".toList
        "doc" 0).2 = [] :=
  C3_unstructured_markdown_defaults _ "doc" 0 rfl rfl rfl rfl rfl rfl

/-- C4 counterexample: the claim says non-alphanumeric characters are
removed from the slug, but the source's character class `[^a-z0-9\s-]`
keeps hyphens: for title "A-B" at index 0 the generated id is "a-b_00",
not the "ab_00" the claim's rule produces. -/
theorem C4_counterexample_hyphen_not_removed :
    generate_feature_id "A-B".toList 0 = "a-b_00".toList
    ∧ claimed_feature_id "A-B".toList 0 = "ab_00".toList
    ∧ generate_feature_id "A-B".toList 0 ≠ claimed_feature_id "A-B".toList 0 :=
  ⟨rfl, rfl, by decide⟩

/-- C4 as amended: the feature id is the lowercased title with
non-alphanumeric characters other than hyphens removed, internal whitespace
collapsed to single underscores (leading/trailing underscores stripped),
suffixed with the zero-padded positional index; the id generation is a
function of title and index (hence deterministic across re-parses), and
distinct positional indices give distinct ids whatever the titles, so ids
are unique within a document even for duplicate titles. -/
theorem C4_feature_id_amended :
    (∀ (t : List Char) (i : Nat), generate_feature_id t i = amended_feature_id t i)
    ∧ generate_feature_id "A-B".toList 0 = "a-b_00".toList
    ∧ (∀ (t1 t2 : List Char) (i j : Nat), i < 100 → j < 100 → i ≠ j →
        generate_feature_id t1 i ≠ generate_feature_id t2 j) :=
  ⟨fun _ _ => rfl, rfl, fun t1 t2 _ _ hi hj hij => generate_feature_id_inj t1 t2 hi hj hij⟩

/-- Witness for C4's amended uniqueness at concrete indices. -/
theorem C4_feature_id_amended_witness :
    0 < 100 ∧ 1 < 100 ∧ (0 : Nat) ≠ 1
    ∧ generate_feature_id "Login".toList 0 ≠ generate_feature_id "Login".toList 1 :=
  ⟨by decide, by decide, by decide,
    C4_feature_id_amended.2.2 "Login".toList "Login".toList 0 1
      (by decide) (by decide) (by decide)⟩

/-- C5: the bold-Priority extractor maps a matched line containing
"high"/"p0" to 0, else "medium"/"p1" to 1, else "low"/"p2" to 2, and
defaults to 0 both when no keyword and when no Priority line is present;
the enhanced free-text path's High/Medium/Low strings convert to the same
0/1/2 ordinals, and the two paths agree on concrete inputs (including the
spec's "High (P0)" → 0 and "Low (P2)" → 2 examples). -/
theorem C5_priority_ordinal_mapping :
    (∀ (fc cap : List Char), scanLabelCI "**priority:**".toList fc = some cap →
      extract_priority fc =
        (let t := lowerStr (pyStrip cap)
         if containsSub "high".toList t || containsSub "p0".toList t then 0
         else if containsSub "medium".toList t || containsSub "p1".toList t then 1
         else if containsSub "low".toList t || containsSub "p2".toList t then 2
         else 0))
    ∧ (∀ (fc : List Char), scanLabelCI "**priority:**".toList fc = none →
        extract_priority fc = 0)
    ∧ convert_priority_to_int "High" = 0
    ∧ convert_priority_to_int "Medium" = 1
    ∧ convert_priority_to_int "Low" = 2
    ∧ extract_priority "**Priority:** High (P0)\n".toList = 0
    ∧ extract_priority "**Priority:** Low (P2)\n".toList = 2
    ∧ convert_priority_to_int (extract_priority_from_text "critical feature".toList)
        = extract_priority "**Priority:** High\n".toList
    ∧ convert_priority_to_int (extract_priority_from_text "should have".toList)
        = extract_priority "**Priority:** Medium\n".toList
    ∧ convert_priority_to_int (extract_priority_from_text "nice to have".toList)
        = extract_priority "**Priority:** Low\n".toList := by
  refine ⟨?_, ?_, rfl, rfl, rfl, rfl, rfl, rfl, rfl, rfl⟩
  · intro fc cap h
    unfold extract_priority
    rw [h]
  · intro fc h
    unfold extract_priority
    rw [h]

/-- Witness for C5 at a concrete input with no Priority line. -/
theorem C5_priority_ordinal_mapping_witness :
    extract_priority "no priority line here".toList = 0 :=
  C5_priority_ordinal_mapping.2.1 "no priority line here".toList rfl

unseal bulletScan subsecScan in
/-- C8: for every feature block the extracted requirements are the bullets
under the bold Requirements label followed by the bullets of the nested
level-4 subsections, merged in that encounter order (with no `####` marker
only the label bullets remain); on the block
`**Requirements:**` + `- REQ-1.1: Email login` + `- REQ-1.2: MFA` the
result is exactly ["Email login", "MFA"], the `REQ-x.y:` prefixes
stripped. -/
theorem C8_requirements_extraction :
    (∀ (fc : List Char), extract_requirements fc =
        (match scanReqSection fc with
         | some sec => bulletScan sec
         | none => []) ++ subsecScan fc)
    ∧ (∀ (fc : List Char), containsSub "####".toList fc = false →
        extract_requirements fc =
          (match scanReqSection fc with
           | some sec => bulletScan sec
           | none => []))
    ∧ (extract_requirements
        "**Requirements:**\n- REQ-1.1: Email login\n- REQ-1.2: MFA".toList).map String.mk
        = ["Email login", "MFA"] := by
  refine ⟨fun fc => rfl, ?_, rfl⟩
  intro fc h
  unfold extract_requirements
  rw [subsecScan_eq_nil fc h]
  simp

/-- Witness for C8 on the claim's own block (which has no subsections). -/
theorem C8_requirements_extraction_witness :
    extract_requirements
        "**Requirements:**\n- REQ-1.1: Email login\n- REQ-1.2: MFA".toList
      = (match scanReqSection
            "**Requirements:**\n- REQ-1.1: Email login\n- REQ-1.2: MFA".toList with
         | some sec => bulletScan sec
         | none => []) :=
  C8_requirements_extraction.2.1 _ rfl

/-- C7: rendering with no codebase and no additional context never fails —
for every template, the generator produces output in which each placeholder
is substituted with its context value, and each placeholder with no
supplied value is substituted with the empty string (so none is left
unresolved). -/
theorem C7_render_never_fails_missing_context :
    ∀ (tpl : List Chunk) (task : Task) (feature : Feature) (prd : PRD) (today : String),
      generate_task_template tpl task feature prd none [] today
        = some (renderFilled tpl (template_context task feature prd none [] today)) :=
  fun tpl task feature prd today => generate_task_template_eq tpl task feature prd none [] today

/-- C6 counterexample: a specified-but-missing template file is NOT a fatal
raised case — `_load_template` silently falls back to the built-in default
template; and the rendering path is NOT non-fatal — when validation reports
the rendered text malformed, `TemplateGenerationAgent.execute` raises
`ValueError` instead of reporting through the validity flag. -/
theorem C6_counterexample_fallback_and_raise :
    load_template_content (some "/missing/template.xml") (fun _ => none) = defaultTemplateContent
    ∧ template_generation_execute (fun _ => Except.error "mismatched tag") c6tpl c6task
        c6feature c6prd "out" none "2025-01-01"
        = Except.error "Generiertes Template ist ungültig: mismatched tag" :=
  ⟨rfl, rfl⟩

/-- C6 as amended: `validate_xml` reports a malformed document through the
`(false, message)` flag rather than raising (and `(true, none)` when the
parse succeeds); `TemplateGenerationAgent.execute` treats a false validity
flag as fatal, raising `ValueError` with the validation message; and a
specified-but-missing template file is non-fatal — the generator silently
falls back to the built-in default template. -/
theorem C6_amended_validation_flag_and_fatal_paths :
    (∀ (parse : String → Except String Unit) (s e : String),
        parse s = Except.error e → validate_xml parse s = (false, some e))
    ∧ (∀ (parse : String → Except String Unit) (s : String),
        parse s = Except.ok () → validate_xml parse s = (true, none))
    ∧ (∀ (parse : String → Except String Unit) (tpl : List Chunk) (t : Task) (f : Feature)
        (prd : PRD) (dir : String) (cb : Option Codebase) (today : String) (e : String),
        parse (renderFilled tpl (template_context t f prd cb
            (prepare_additional_context t f prd cb) today)) = Except.error e →
        template_generation_execute parse tpl t f prd dir cb today
          = Except.error ("Generiertes Template ist ungültig: " ++ e))
    ∧ (∀ (p : String) (fs : String → Option String), ¬ p = "" → fs p = none →
        load_template_content (some p) fs = defaultTemplateContent) := by
  refine ⟨?_, ?_, ?_, ?_⟩
  · intro parse s e h
    unfold validate_xml
    rw [h]
  · intro parse s h
    unfold validate_xml
    rw [h]
  · intro parse tpl t f prd dir cb today e h
    simp only [template_generation_execute, generate_task_template_eq, validate_xml, h,
      Option.getD]
  · intro p fs hp hfs
    simp only [load_template_content]
    rw [if_neg hp, hfs]

/-- Witness for C6's amended claim at concrete inputs. -/
theorem C6_amended_witness :
    load_template_content (some "/missing/template.xml") (fun _ => none)
      = defaultTemplateContent :=
  C6_amended_validation_flag_and_fatal_paths.2.2.2 "/missing/template.xml" (fun _ => none)
    (by decide) rfl

/-- C9 counterexample: the agent writes
`{sequence:02d}_{featureId}_{taskId}.xml` with TWO-digit zero padding — for
sequence 1, feature "feat", task "task-1" the filename is
"01_feat_task-1.xml", not the "001_feat_task-1.xml" of the claimed
three-digit convention (and the use-case writer, which does pad to three
digits, names files by task name instead of featureId/taskId). -/
theorem C9_counterexample_two_digit_sequence :
    template_output_filename c9task c9feature = "01_feat_task-1.xml"
    ∧ spec_claimed_filename c9task.sequence_number c9feature.id c9task.task_id
        = "001_feat_task-1.xml"
    ∧ template_output_filename c9task c9feature
        ≠ spec_claimed_filename c9task.sequence_number c9feature.id c9task.task_id :=
  ⟨rfl, rfl, by decide⟩

/-- C9 as amended: the template file is written at the caller-chosen
directory under `{sequence:02d}_{featureId}_{taskId}.xml` (two-digit
zero-padded sequence, then the owning feature's id, then the task id), the
path `execute` returns on successful validation; the use-case writer uses
`{sequence:03d}_{name with spaces underscored}.xml`. -/
theorem C9_amended_output_filename :
    (∀ (dir : String) (t : Task) (f : Feature),
        template_generation_output_path dir t f
          = dir ++ "/" ++ (String.mk (pad2 t.sequence_number) ++ "_" ++ f.id ++ "_"
              ++ t.task_id ++ ".xml"))
    ∧ (∀ (parse : String → Except String Unit) (tpl : List Chunk) (t : Task) (f : Feature)
        (prd : PRD) (dir : String) (cb : Option Codebase) (today : String),
        parse (renderFilled tpl (template_context t f prd cb
            (prepare_additional_context t f prd cb) today)) = Except.ok () →
        template_generation_execute parse tpl t f prd dir cb today
          = Except.ok (template_generation_output_path dir t f))
    ∧ (∀ (n : Nat) (name : String),
        use_case_template_filename n name
          = String.mk (pad3 n) ++ "_"
              ++ String.mk (name.toList.map (fun c => if c = ' ' then '_' else c)) ++ ".xml") := by
  refine ⟨fun _ _ _ => rfl, ?_, fun _ _ => rfl⟩
  intro parse tpl t f prd dir cb today h
  simp only [template_generation_execute, generate_task_template_eq, validate_xml, h]

/-- Witness for C9's amended claim at concrete inputs. -/
theorem C9_amended_output_filename_witness :
    template_generation_execute (fun _ => Except.ok ()) [Chunk.ph "task_id"] c9task c9feature
        c9prd "out" none "2025-01-01"
      = Except.ok (template_generation_output_path "out" c9task c9feature) :=
  C9_amended_output_filename.2.1 (fun _ => Except.ok ()) [Chunk.ph "task_id"] c9task c9feature
    c9prd "out" none "2025-01-01" rfl
